import Mathlib

/-!
# Verification of the chait interactive terminal session engine

Shallow embedding of the interactive-mode core of the `chait` repository
(Go sources: the interactive model, its `Update` event loop, the text
layout engine `wrapText`/`findBreakPoint`, the scroll controller and the
selector widget), together with proofs settling the specification claims.

Conventions:
* Go strings handled as rune sequences become `List Char`.
* Go `int` becomes `Int` (Go arithmetic on non-negative operands agrees
  with `Int`); list indices and lengths that are provably non-negative
  become `Nat` where the Go code only ever uses them as indices.
* The collaborator layer (provider registry, network, clipboard) is
  modelled as environment data carried by the events that consult it.
-/

namespace Chait

/-! ## Data model: message types (Go `MessageType`, `Message`) -/

/-- Go `type MessageType string` with its five constants
`System / User / Assistant / Chait / Error`. -/
inductive MessageType where
  | System
  | User
  | Assistant
  | Chait
  | Error
deriving DecidableEq, Repr

/-- The Go string value of a `MessageType` constant. -/
def MessageType.str : MessageType → List Char
  | .System => "System".toList
  | .User => "User".toList
  | .Assistant => "Assistant".toList
  | .Chait => "Chait".toList
  | .Error => "Error".toList

/-- Discriminator for the System constant (Go `msg.Type == MessageTypeSystem`). -/
def MessageType.isSystem : MessageType → Bool
  | .System => true
  | _ => false

/-- Model of `strings.ToLower(string(m.Type))` for the five constants. -/
def MessageType.lower : MessageType → List Char
  | .System => "system".toList
  | .User => "user".toList
  | .Assistant => "assistant".toList
  | .Chait => "chait".toList
  | .Error => "error".toList

/-- Go `type Message struct { Type MessageType; Content string }`
(the field `Type` is renamed `type` since `Type` is a Lean keyword). -/
structure Message where
  type : MessageType
  content : List Char
deriving DecidableEq, Repr

/-- Go `provider.ChatMessage` (`Role`, `Content`). -/
structure ChatMessage where
  role : List Char
  content : List Char
deriving DecidableEq, Repr

/-- Go `func (m Message) ToChatMessage() provider.ChatMessage`. -/
def Message.toChatMessage (m : Message) : ChatMessage :=
  { role := m.type.lower, content := m.content }

/-! ## Selector widget (Go `selectorWidget`) -/

/-- The `interface{}` payload of a selector option: provider / model names
are strings, temperature presets are float64 values (represented by `ℚ`;
the claims never compute with the payload). -/
inductive SelValue where
  | str (s : List Char)
  | num (q : ℚ)
deriving DecidableEq, Repr

/-- Go `type selectorOption struct { name string; value interface{} }`. -/
structure SelectorOption where
  name : List Char
  value : SelValue
deriving DecidableEq, Repr

/-- Go `type selectorWidget struct { title; options; currentIndex; isActive }`. -/
structure SelectorWidget where
  title : List Char
  options : List SelectorOption
  currentIndex : Int
  isActive : Bool
deriving DecidableEq, Repr

/-- Go `func (s *selectorWidget) activate()`. -/
def SelectorWidget.activate (s : SelectorWidget) : SelectorWidget :=
  { s with isActive := true }

/-- Go `func (s *selectorWidget) deactivate()`. -/
def SelectorWidget.deactivate (s : SelectorWidget) : SelectorWidget :=
  { s with isActive := false }

/-- Go `selectNext`: no-op on an empty option list, else
`currentIndex = (currentIndex + 1) % len(options)`. -/
def SelectorWidget.selectNext (s : SelectorWidget) : SelectorWidget :=
  if s.options.length = 0 then s
  else { s with currentIndex := (s.currentIndex + 1) % (s.options.length : Int) }

/-- Go `selectPrevious`: no-op on an empty option list, else
`currentIndex = (currentIndex - 1 + len(options)) % len(options)`. -/
def SelectorWidget.selectPrevious (s : SelectorWidget) : SelectorWidget :=
  if s.options.length = 0 then s
  else
    { s with
      currentIndex :=
        (s.currentIndex - 1 + (s.options.length : Int)) % (s.options.length : Int) }

/-- Go `selectByIndex`: sets the index and reports `true` exactly when
`0 <= index < len(options)`. -/
def SelectorWidget.selectByIndex (s : SelectorWidget) (index : Int) :
    SelectorWidget × Bool :=
  if 0 ≤ index ∧ index < (s.options.length : Int) then
    ({ s with currentIndex := index }, true)
  else (s, false)

/-- Go `confirm`: deactivates; the Go method also returns the chosen value,
which in the event loop is handed to the collaborator. -/
def SelectorWidget.confirm (s : SelectorWidget) : SelectorWidget :=
  s.deactivate

/-! ## Layout engine (Go `wrapText` / `findBreakPoint`)

Display widths follow `runewidth.RuneWidth` of the go-runewidth
collaborator: 0 cells for control characters, 2 cells for wide
East-Asian glyphs (the principal wide/fullwidth blocks are modelled),
1 cell otherwise. -/

/-- Whether a code point lies in one of the wide East-Asian ranges that
`go-runewidth` reports as 2 cells wide. -/
def isWideRune (c : Char) : Bool :=
  let n := c.toNat
  (0x1100 ≤ n && n ≤ 0x115F) ||
  (0x2E80 ≤ n && n ≤ 0x303E) ||
  (0x3041 ≤ n && n ≤ 0x33FF) ||
  (0x3400 ≤ n && n ≤ 0x4DBF) ||
  (0x4E00 ≤ n && n ≤ 0x9FFF) ||
  (0xA000 ≤ n && n ≤ 0xA4CF) ||
  (0xAC00 ≤ n && n ≤ 0xD7A3) ||
  (0xF900 ≤ n && n ≤ 0xFAFF) ||
  (0xFE30 ≤ n && n ≤ 0xFE4F) ||
  (0xFF00 ≤ n && n ≤ 0xFF60) ||
  (0xFFE0 ≤ n && n ≤ 0xFFE6) ||
  (0x20000 ≤ n && n ≤ 0x2FFFD) ||
  (0x30000 ≤ n && n ≤ 0x3FFFD)

/-- Model of `runewidth.RuneWidth`: 0 for control characters, 2 for wide
East-Asian glyphs, 1 otherwise. -/
def runeWidth (c : Char) : Nat :=
  if c.toNat < 0x20 || c.toNat = 0x7F then 0
  else if isWideRune c then 2
  else 1

/-- Display width in cells of a rune sequence. -/
def cells (l : List Char) : Nat :=
  (l.map runeWidth).sum

/-- The greedy scan loop of `findBreakPoint`: starting with accumulated
visual width `vw` after consuming `i` runes, returns the Go loop's final
`pos` (the index of the first rune that would overflow `width`, or the
total length if everything fits). -/
def fbpGo (width : Int) : List Char → Int → Nat → Nat
  | [], _, i => i
  | r :: rs, vw, i =>
    if vw + (runeWidth r : Int) > width then i
    else fbpGo width rs (vw + (runeWidth r : Int)) (i + 1)

/-- The backward whitespace scan of `findBreakPoint`
(`for i := pos - 1; i > 0; i--`): starting at index `j`, returns
`some (i + 1)` for the greatest `i ≤ j` with `i ≥ 1` and `runes[i] = ' '`,
else `none`.  Index 0 is never examined, exactly as in the Go loop. -/
def lastSpaceFrom (runes : List Char) : Nat → Option Nat
  | 0 => none
  | j + 1 => if runes.getD (j + 1) 'A' = ' ' then some (j + 2) else lastSpaceFrom runes j

/-- Go `func findBreakPoint(runes []rune, width int) int`. -/
def findBreakPoint (runes : List Char) (width : Int) : Nat :=
  if runes.length = 0 then 0
  else
    let pos := fbpGo width runes 0 0
    if pos = runes.length then pos
    else
      match lastSpaceFrom runes (pos - 1) with
      | some k => k
      | none => pos

/-- The inner wrapping loop of `wrapText` (`for len(runes) > 0 { ... }`)
for a single source line, with explicit fuel.  Each iteration emits
`runes[:breakPoint]`, then (when text remains) a newline, and continues
on `runes[breakPoint:]` with the full `width` as the new line budget.
The Go loop has no fuel: when `findBreakPoint` returns 0 with
`currentWidth = width` it loops forever (see the claim C3 results); the
embedding returns `none` in that case for every fuel value. -/
def wrapLineFuel (width : Int) : Nat → List Char → Int → Option (List Char)
  | _, [], _ => some []
  | 0, _ :: _, _ => none
  | fuel + 1, r :: rs, currentWidth =>
    let runes := r :: rs
    let breakPoint := findBreakPoint runes currentWidth
    let chunk := runes.take breakPoint
    let rest := runes.drop breakPoint
    if rest.isEmpty then some chunk
    else
      match wrapLineFuel width fuel rest width with
      | some out => some (chunk ++ '\n' :: out)
      | none => none

/-- Model of `strings.Split(text, "\n")` on rune sequences. -/
def splitLines : List Char → List (List Char)
  | [] => [[]]
  | c :: cs =>
    if c = '\n' then [] :: splitLines cs
    else
      match splitLines cs with
      | [] => [[c]]
      | l :: ls => (c :: l) :: ls

/-- Joining with newline separators (the `lineIdx > 0` newline of the
outer `wrapText` loop). -/
def joinLines : List (List Char) → List Char
  | [] => []
  | [l] => l
  | l :: ls => l ++ '\n' :: joinLines ls

/-- Collects a list of optional results, failing if any entry failed. -/
def allSome : List (Option (List Char)) → Option (List (List Char))
  | [] => some []
  | none :: _ => none
  | some l :: rest => (allSome rest).map (l :: ·)

/-- Go `func wrapText(text string, width, prefixLen int) string`, with
explicit fuel for the inner wrapping loop: `width <= 0` returns the text
unchanged; otherwise each `"\n"`-separated source line is wrapped with a
first-chunk budget of `width - prefixLen` (the Go code resets
`currentWidth` to `width - prefixLen` for every source line).  `none`
means the Go loop did not finish within `fuel` iterations on some line. -/
def wrapTextF (fuel : Nat) (text : List Char) (width prefixLen : Int) :
    Option (List Char) :=
  if width ≤ 0 then some text
  else
    match allSome ((splitLines text).map
        (fun line => wrapLineFuel width fuel line (width - prefixLen))) with
    | some wrapped => some (joinLines wrapped)
    | none => none

/-- Total wrapper used by the render path of the embedding: runs
`wrapTextF` with fuel `text.length + 2`, which theorem
`wrapText_roundTrip` below shows is enough whenever `2 ≤ width`; where
the Go code diverges (see claim C3) it falls back to the unwrapped
text (the value is irrelevant to every claim; only the line count of
the render, which is a function of the same inputs, matters). -/
def wrapTextTotal (text : List Char) (width prefixLen : Int) : List Char :=
  (wrapTextF (text.length + 2) text width prefixLen).getD text

/-! ## The interactive model (Go `interactiveModel`) -/

/-- Go `type point struct { line, col int }`. -/
structure Point where
  line : Int
  col : Int
deriving DecidableEq, Repr

/-- Go `type messageWithType struct { Type MessageType; Content string }`. -/
structure MessageWithType where
  type : MessageType
  content : List Char
deriving DecidableEq, Repr

instance : Inhabited MessageWithType := ⟨{ type := .Chait, content := [] }⟩

/-- Go `type interactiveModel struct` — the whole event-loop state.  The
opaque receive-channel handle `respChan` is modelled by whether it is
set (`nil` versus non-`nil`); no claim inspects more of it. -/
structure InteractiveModel where
  messages : List Message
  input : List Char
  cursor : Nat
  respChan : Bool
  width : Int
  height : Int
  scrollPos : Int
  enableInput : Bool
  apiKeyInputMode : Bool
  selecting : Bool
  selectionStart : Point
  selectionEnd : Point
  selectedText : List Char
  cursorVisible : Bool
  providerSelector : SelectorWidget
  modelSelector : SelectorWidget
  temperatureSelector : SelectorWidget
  autoScrollBottom : Bool
deriving DecidableEq, Repr

/-- Go `systemMessage()`. -/
def systemMessage : Message :=
  { type := .System, content := "You are a helpful assistant.".toList }

/-- Go `helloMessage()`.  Its middle line renders the active provider,
model and temperature (`%.1f` float formatting) obtained from the
collaborator; that collaborator-determined line is the `providerInfo`
parameter. -/
def helloMessage (providerInfo : List Char) : Message :=
  { type := .Chait,
    content :=
      "Welcome to chait interactive mode!".toList ++ '\n' :: providerInfo ++
        "\nType ':h' to see all available commands.\n-----------------------------------".toList }

/-- Go `helpMessage()`, with the collaborator-determined provider line
abstracted as in `helloMessage`. -/
def helpMessage (providerInfo : List Char) : Message :=
  { type := .Chait,
    content :=
      "-----------------------------------".toList ++ '\n' :: providerInfo ++
        "\nAvailable commands:\n- ':h' - Show this message\n- ':p' - select providers\n- ':m' - select models\n- ':t' - Set the temperature\n- ':k' - Set the API key\n- ':c' - Start a new conversation\n- 'ctrl+c' - Exit interactive mode\n-----------------------------------".toList }

/-! ### Layout of the message store (Go `formatMessages`,
`getFormattedMessageLines`) -/

/-- One step of Go `formatMessages`: prefix the content according to the
message type and wrap it when the width is positive.  `prefixLen` is the
byte length of the prefix (all prefixes are ASCII). -/
def formatOne (width : Int) (msg : Message) : MessageWithType :=
  match msg.type with
  | .User =>
    { type := msg.type,
      content := "> ".toList ++
        (if 0 < width then wrapTextTotal msg.content width 2 else msg.content) }
  | .Assistant =>
    { type := msg.type,
      content := ("Assistant: ".toList ++
        (if 0 < width then wrapTextTotal msg.content width 11 else msg.content)) ++ ['\n'] }
  | .System =>
    { type := msg.type,
      content := "System: ".toList ++
        (if 0 < width then wrapTextTotal msg.content width 8 else msg.content) }
  | .Chait =>
    { type := msg.type,
      content := if 0 < width then wrapTextTotal msg.content width 0 else msg.content }
  | .Error =>
    { type := msg.type,
      content := "Error: ".toList ++
        (if 0 < width then wrapTextTotal msg.content width 7 else msg.content) }

/-- Go `func (m interactiveModel) formatMessages() []messageWithType`. -/
def InteractiveModel.formatMessages (m : InteractiveModel) : List MessageWithType :=
  m.messages.map (formatOne m.width)

/-- Go `func (m interactiveModel) getFormattedMessageLines()`: every
formatted message is split on newlines into visual lines tagged with the
source message type. -/
def InteractiveModel.getFormattedMessageLines (m : InteractiveModel) :
    List MessageWithType :=
  (m.formatMessages.map
    (fun msg => (splitLines msg.content).map
      (fun line => { type := msg.type, content := line : MessageWithType }))).flatten

/-- Total number of visual lines of the current store at the current
width (`len(m.getFormattedMessageLines())`). -/
def InteractiveModel.totalLines (m : InteractiveModel) : Nat :=
  m.getFormattedMessageLines.length

/-! ### Scroll controller (Go scroll methods) -/

/-- The scroll upper bound `max(0, totalLines - (height - 3))` that the Go
code recomputes at each clamping site (3 rows are reserved for the input
area). -/
def InteractiveModel.maxScroll (m : InteractiveModel) : Int :=
  let ms : Int := (m.totalLines : Int) - (m.height - 3)
  if ms < 0 then 0 else ms

/-- Go `func (m *interactiveModel) scrollUp(lines int)`. -/
def InteractiveModel.scrollUp (m : InteractiveModel) (lines : Int) : InteractiveModel :=
  let m := if !m.enableInput then { m with autoScrollBottom := false } else m
  let p := m.scrollPos - lines
  { m with scrollPos := if p < 0 then 0 else p }

/-- Go `func (m *interactiveModel) scrollDown(lines int)`. -/
def InteractiveModel.scrollDown (m : InteractiveModel) (lines : Int) : InteractiveModel :=
  let p := m.scrollPos + lines
  { m with scrollPos := if p > m.maxScroll then m.maxScroll else p }

/-- Go `scrollPageUp` (sets `autoScrollBottom` exactly as the Go method
pair does, then scrolls up by `height / 2`). -/
def InteractiveModel.scrollPageUp (m : InteractiveModel) : InteractiveModel :=
  let m := if !m.enableInput then { m with autoScrollBottom := false } else m
  m.scrollUp (m.height / 2)

/-- Go `scrollPageDown`. -/
def InteractiveModel.scrollPageDown (m : InteractiveModel) : InteractiveModel :=
  m.scrollDown (m.height / 2)

/-- Go `scrollToTop`. -/
def InteractiveModel.scrollToTop (m : InteractiveModel) : InteractiveModel :=
  let m := if !m.enableInput then { m with autoScrollBottom := false } else m
  { m with scrollPos := 0 }

/-- Go `scrollToBottom`: pins to `totalLines - (height - 3)` when the
content exceeds the visible area, else 0. -/
def InteractiveModel.scrollToBottom (m : InteractiveModel) : InteractiveModel :=
  let t : Int := (m.totalLines : Int)
  let vh : Int := m.height - 3
  { m with scrollPos := if t > vh then t - vh else 0 }

/-! ### Selection engine (Go `updateSelectedText`,
`visualColumnToRuneIndex`) -/

/-- The scan loop of Go `visualColumnToRuneIndex`: `i` runes consumed so
far at accumulated visual position `visualPos`. -/
def vctriGo (visualColumn : Int) : List Char → Int → Nat → Nat
  | [], _, i => i
  | r :: rs, visualPos, i =>
    if visualPos ≥ visualColumn then i
    else vctriGo visualColumn rs (visualPos + (runeWidth r : Int)) (i + 1)

/-- Go `func visualColumnToRuneIndex(lineRunes []rune, visualColumn int) int`.
Always returns a value in `[0, len lineRunes]`, so the bounds clamps the
Go caller applies afterwards are no-ops and are not repeated here. -/
def visualColumnToRuneIndex (lineRunes : List Char) (visualColumn : Int) : Nat :=
  vctriGo visualColumn lineRunes 0 0

/-- The piece of selected text contributed by visual line `i` in the loop
of Go `updateSelectedText` (`line` is that visual line's content). -/
def selPiece (s e : Point) (i : Int) (line : List Char) : List Char :=
  if s.line = e.line then
    let startIdx := visualColumnToRuneIndex line s.col
    let endIdx := visualColumnToRuneIndex line e.col
    if startIdx < endIdx then (line.take endIdx).drop startIdx else []
  else if i = s.line then line.drop (visualColumnToRuneIndex line s.col)
  else if i = e.line then '\n' :: line.take (visualColumnToRuneIndex line e.col)
  else '\n' :: line

/-- Go `func (m *interactiveModel) updateSelectedText()`: normalizes the
two selection points, clamps the line indices, then concatenates the
per-line pieces for `i = start.line .. end.line`, skipping (Go: breaking
at) indices past the end of the line list. -/
def extractSelectedText (m : InteractiveModel) : List Char :=
  let allLines := m.getFormattedMessageLines
  let n : Int := allLines.length
  let se :=
    if m.selectionStart.line > m.selectionEnd.line ∨
        (m.selectionStart.line = m.selectionEnd.line ∧
          m.selectionStart.col > m.selectionEnd.col) then
      (m.selectionEnd, m.selectionStart)
    else (m.selectionStart, m.selectionEnd)
  let s := if se.1.line < 0 then { line := 0, col := 0 : Point } else se.1
  let s :=
    if s.line ≥ n then { s with line := if n - 1 < 0 then 0 else n - 1 } else s
  let e :=
    if se.2.line ≥ n then { se.2 with line := if n - 1 < 0 then 0 else n - 1 }
    else se.2
  ((List.range (e.line - s.line + 1).toNat).map (fun k => s.line + (k : Int))).foldl
    (fun acc i =>
      if i ≥ n then acc
      else acc ++ selPiece s e i (allLines.getD i.toNat default).content)
    []

/-! ### Collaborator environment

The event loop consults the provider registry (`api.GetActiveProvider`,
`api.SendStreamingChatRequest`, `api.SetAPIKey`, …) and `refreshConfig`
rebuilds the three selectors from collaborator state.  All data those
calls return is carried by an `Env` value attached to the events that
trigger them. -/

/-- The data `refreshConfig` obtains from the collaborator: the option
lists for the three selectors and the indices of the currently-active
entries found in them. -/
structure RefreshData where
  providerOptions : List SelectorOption
  providerIndex : Int
  modelOptions : List SelectorOption
  modelIndex : Int
  tempOptions : List SelectorOption
  tempIndex : Int
deriving DecidableEq, Repr

/-- Collaborator responses consumed by one event. -/
structure Env where
  providerReady : Bool
  sendError : Option (List Char)
  apiKeyError : Option (List Char)
  providerName : List Char
  providerInfo : List Char
  refresh : RefreshData
deriving DecidableEq, Repr

/-- Go `func refreshConfig(m *interactiveModel)`: overwrites the three
selectors' option lists and current indices from collaborator state.
It does not touch `isActive`. -/
def refreshConfig (rd : RefreshData) (m : InteractiveModel) : InteractiveModel :=
  { m with
    providerSelector :=
      { m.providerSelector with
        options := rd.providerOptions, currentIndex := rd.providerIndex },
    modelSelector :=
      { m.modelSelector with
        options := rd.modelOptions, currentIndex := rd.modelIndex },
    temperatureSelector :=
      { m.temperatureSelector with
        options := rd.tempOptions, currentIndex := rd.tempIndex } }

/-- Go `func (m *interactiveModel) enterSettingAPIKeyMode()`. -/
def enterSettingAPIKeyMode (m : InteractiveModel) (providerName : List Char) :
    InteractiveModel :=
  InteractiveModel.scrollToBottom
    { m with
      apiKeyInputMode := true,
      messages := m.messages ++
        [{ type := .Chait,
           content := "Please enter your API key of ".toList ++ providerName ++ [':'] }],
      input := [], cursor := 0, enableInput := true }

/-! ### Request assembly (Go `getSystemMessage` / `getRecentMessages`) -/

/-- Go `func (m interactiveModel) getSystemMessage() provider.ChatMessage`:
the first stored System message converted, or the zero `ChatMessage`. -/
def InteractiveModel.getSystemMessage (m : InteractiveModel) : ChatMessage :=
  match m.messages.find? (fun msg => msg.type.isSystem) with
  | some msg => msg.toChatMessage
  | none => { role := [], content := [] }

/-- The collection filter of `getRecentMessages`. -/
def isUserOrAssistant (msg : Message) : Bool :=
  match msg.type with
  | .Assistant => true
  | .User => true
  | _ => false

/-- Go `func (m interactiveModel) getRecentMessages() []provider.ChatMessage`:
walks the store backwards collecting User/Assistant messages until 20 are
gathered, reverses the collection back into conversation order and
prepends the System message. -/
def InteractiveModel.getRecentMessages (m : InteractiveModel) : List ChatMessage :=
  m.getSystemMessage ::
    (((m.messages.reverse.filter isUserOrAssistant).take 20).map
      Message.toChatMessage).reverse

/-! ### Events and commands (Go `tea.Msg` / `tea.Cmd`) -/

/-- The commands `interactiveModel.Update` returns: `blink` is
`cursorBlinker()`, `receive` is `processStreamResponse(respChan)` (one
outstanding "fetch next chunk"), `startStream` wraps `startStreamingMsg`,
`quit` is `tea.Quit`, `none` is a nil command. -/
inductive Cmd where
  | none
  | blink
  | receive
  | startStream
  | quit
deriving DecidableEq, Repr

/-- The events `interactiveModel.Update` discriminates.  Key events are
split by the `msg.String()` / `msg.Type` cases of the Go switch; Ctrl-C
and Esc share one branch.  `streamResponse` is the `streamResponseMsg`
delivered by an outstanding receive command; a closed channel is
`content = [], done = true, error = none`.  Events whose branch consults
the collaborator carry an `Env`. -/
inductive Event where
  | cursorBlink
  | windowSize (w h : Int)
  | startStreaming (env : Env)
  | streamResponse (content : List Char) (done : Bool) (error : Option (List Char))
  | mouseWheelUp
  | mouseWheelDown
  | mousePress (x y : Int)
  | mouseMotion (x y : Int)
  | mouseRelease (x y : Int)
  | keyCtrlP
  | keyCtrlM
  | keyCtrlT
  | keyPgUp
  | keyPgDown
  | keyUp
  | keyDown
  | keyHome
  | keyEnd
  | keyAltEnter
  | keyCtrlCOrEsc (env : Env)
  | keyEnter (env : Env)
  | keyLeft
  | keyRight
  | keyDelete
  | keyBackspace
  | keySpace
  | keyRunes (runes : List Char) (env : Env)
deriving DecidableEq, Repr

/-- Replacing the last stored message (Go `m.messages[len(m.messages)-1] = x`).
Go would panic on an empty store; the store is never empty in any
reachable state (lemma `reach_messages_ne_nil`), and the embedding
totalizes the operation by leaving an empty store unchanged. -/
def setLast (ms : List Message) (msg : Message) : List Message :=
  if ms.isEmpty then ms else ms.dropLast ++ [msg]

/-- The `startStreamingMsg` branch of `Update`: when the provider is not
ready, enter API-key entry; otherwise issue the streaming request built
by `getRecentMessages` to the collaborator, append the empty in-flight
Assistant message, and on a request error replace it with an Error
message and re-enable input, else store the channel and issue the first
receive command. -/
def updateStartStreaming (m : InteractiveModel) (env : Env) :
    InteractiveModel × Cmd :=
  if !env.providerReady then (enterSettingAPIKeyMode m env.providerName, .none)
  else
    let m := { m with
      messages := m.messages ++ [({ type := .Assistant, content := [] } : Message)] }
    match env.sendError with
    | some e =>
      ({ m with
          messages := setLast m.messages { type := .Error, content := e },
          enableInput := true }, .none)
    | none => ({ m with respChan := true }, .receive)

/-- The `streamResponseMsg` branch of `Update`: a chunk error replaces the
last message with an Error message and stops the receive loop (the Go
code does not touch `enableInput` here — claim C1); a content delta
extends the last message, re-pins the viewport when `autoScrollBottom`
is set, and either re-issues the receive command or, on `done`,
re-enables input. -/
def updateStreamResponse (m : InteractiveModel) (content : List Char)
    (done : Bool) (error : Option (List Char)) : InteractiveModel × Cmd :=
  match error with
  | some e => ({ m with messages := setLast m.messages { type := .Error, content := e } }, .none)
  | none =>
    let m :=
      { m with messages :=
          match m.messages.getLast? with
          | some last =>
            setLast m.messages { type := .Assistant, content := last.content ++ content }
          | none => m.messages }
    let m := if m.autoScrollBottom then m.scrollToBottom else m
    if !done then (m, .receive)
    else ({ m with enableInput := true }, .none)

/-- The `tea.KeyEnter` branch of `Update`. -/
def updateKeyEnter (m : InteractiveModel) (env : Env) : InteractiveModel × Cmd :=
  if m.providerSelector.isActive then
    (refreshConfig env.refresh
      { m with providerSelector := m.providerSelector.confirm }, .none)
  else if m.modelSelector.isActive then
    (refreshConfig env.refresh
      { m with modelSelector := m.modelSelector.confirm }, .none)
  else if m.temperatureSelector.isActive then
    (refreshConfig env.refresh
      { m with temperatureSelector := m.temperatureSelector.confirm }, .none)
  else if m.apiKeyInputMode then
    if m.input = [] then (m, .none)
    else
      let m : InteractiveModel :=
        match env.apiKeyError with
        | some e =>
          { m with messages := m.messages ++
              [{ type := .Error, content := "Error setting API key: ".toList ++ e }] }
        | none =>
          { m with messages := m.messages ++
              [{ type := .Chait,
                 content := "API key for '".toList ++ env.providerName ++
                   "' has been set successfully.".toList }] }
      ({ m with apiKeyInputMode := false, input := [], cursor := 0 }, .none)
  else
    let m := m.scrollToBottom
    if !m.enableInput then ({ m with autoScrollBottom := true }, .none)
    else if m.input = [] then (m, .none)
    else
      ({ m with
          messages := m.messages ++ [{ type := .User, content := m.input }],
          input := [], cursor := 0,
          autoScrollBottom := true, enableInput := false }, .startStream)

/-- The `tea.KeyCtrlC, tea.KeyEsc` branch of `Update`: cancel an active
selector (with a config refresh), else cancel a running stream (drop the
channel, re-enable input), else quit. -/
def updateKeyCtrlCOrEsc (m : InteractiveModel) (env : Env) : InteractiveModel × Cmd :=
  if m.providerSelector.isActive then
    (refreshConfig env.refresh
      { m with providerSelector := m.providerSelector.deactivate }, .none)
  else if m.modelSelector.isActive then
    (refreshConfig env.refresh
      { m with modelSelector := m.modelSelector.deactivate }, .none)
  else if m.temperatureSelector.isActive then
    (refreshConfig env.refresh
      { m with temperatureSelector := m.temperatureSelector.deactivate }, .none)
  else if !m.enableInput then
    ({ m with respChan := false, enableInput := true }, .none)
  else (m, .quit)

/-- The `:`-command dispatch at the end of the `tea.KeyRunes` branch of
`Update`: `newInput` is the input buffer with the incoming runes inserted
at the cursor, `rsLen` the number of incoming runes (`len(msg.Runes)`).
A `:p`/`:m`/`:t` command activates one selector and deactivates the other
two; `:h` appends the help message; `:k` enters API-key entry; `:c`
resets the store to the System message alone; anything else just commits
the new input buffer. -/
def updateColonCommand (m : InteractiveModel) (newInput : List Char) (rsLen : Nat)
    (env : Env) : InteractiveModel × Cmd :=
  if newInput ≠ [] ∧ newInput.getD 0 'x' = ':' ∧ newInput.drop 1 = ['p'] then
    ({ m with
        providerSelector := m.providerSelector.activate,
        modelSelector := m.modelSelector.deactivate,
        temperatureSelector := m.temperatureSelector.deactivate,
        input := [], cursor := 0 }, .none)
  else if newInput ≠ [] ∧ newInput.getD 0 'x' = ':' ∧ newInput.drop 1 = ['m'] then
    ({ m with
        modelSelector := m.modelSelector.activate,
        providerSelector := m.providerSelector.deactivate,
        temperatureSelector := m.temperatureSelector.deactivate,
        input := [], cursor := 0 }, .none)
  else if newInput ≠ [] ∧ newInput.getD 0 'x' = ':' ∧ newInput.drop 1 = ['t'] then
    ({ m with
        temperatureSelector := m.temperatureSelector.activate,
        providerSelector := m.providerSelector.deactivate,
        modelSelector := m.modelSelector.deactivate,
        input := [], cursor := 0 }, .none)
  else if newInput ≠ [] ∧ newInput.getD 0 'x' = ':' ∧ newInput.drop 1 = ['h'] then
    (InteractiveModel.scrollToBottom
      { m with
          messages := m.messages ++ [helpMessage env.providerInfo],
          input := [], cursor := 0 }, .none)
  else if newInput ≠ [] ∧ newInput.getD 0 'x' = ':' ∧ newInput.drop 1 = ['k'] then
    (enterSettingAPIKeyMode m env.providerName, .none)
  else if newInput ≠ [] ∧ newInput.getD 0 'x' = ':' ∧ newInput.drop 1 = ['c'] then
    (InteractiveModel.scrollToBottom
      { m with messages := [systemMessage], input := [], cursor := 0 }, .none)
  else ({ m with input := newInput, cursor := m.cursor + rsLen }, .none)

/-- The `tea.KeyRunes` branch of `Update`: the digit shortcut consults the
**existing** one-character input buffer (exactly as the Go code does);
otherwise the runes are inserted at the cursor and the result is checked
against the `:`-commands. -/
def updateKeyRunes (m : InteractiveModel) (runes : List Char) (env : Env) :
    InteractiveModel × Cmd :=
  let digit := m.input.length = 1 ∧ '1' ≤ m.input.getD 0 'x' ∧ m.input.getD 0 'x' ≤ '9'
  if digit ∧ m.providerSelector.isActive then
    let r := m.providerSelector.selectByIndex ((m.input.getD 0 'x').toNat - '1'.toNat)
    ({ m with providerSelector := if r.2 then r.1.confirm else r.1 }, .none)
  else if digit ∧ m.modelSelector.isActive then
    let r := m.modelSelector.selectByIndex ((m.input.getD 0 'x').toNat - '1'.toNat)
    ({ m with modelSelector := if r.2 then r.1.confirm else r.1 }, .none)
  else if digit ∧ m.temperatureSelector.isActive then
    let r := m.temperatureSelector.selectByIndex ((m.input.getD 0 'x').toNat - '1'.toNat)
    ({ m with temperatureSelector := if r.2 then r.1.confirm else r.1 }, .none)
  else
    updateColonCommand m (m.input.take m.cursor ++ runes ++ m.input.drop m.cursor)
      runes.length env

/-- Go `func (m interactiveModel) Update(msg tea.Msg) (tea.Model, tea.Cmd)`. -/
def update (m : InteractiveModel) (e : Event) : InteractiveModel × Cmd :=
  match e with
  | .cursorBlink => ({ m with cursorVisible := !m.cursorVisible }, .blink)
  | .windowSize w h => ({ m with width := w, height := h }, .none)
  | .startStreaming env => updateStartStreaming m env
  | .streamResponse content done error => updateStreamResponse m content done error
  | .mouseWheelUp => ({ m.scrollUp 3 with autoScrollBottom := false }, .none)
  | .mouseWheelDown =>
    let m := m.scrollDown 3
    (if m.scrollPos ≥ m.maxScroll then { m with autoScrollBottom := true } else m, .none)
  | .mousePress x y =>
    let pt : Point := { line := y + m.scrollPos, col := x }
    ({ m with
        selecting := true, autoScrollBottom := false,
        selectionStart := pt, selectionEnd := pt }, .none)
  | .mouseMotion x y =>
    if m.selecting then
      let m := { m with selectionEnd := { line := y + m.scrollPos, col := x } }
      ({ m with selectedText := extractSelectedText m }, .none)
    else (m, .none)
  | .mouseRelease x y =>
    if m.selecting then
      let m := { m with selectionEnd := { line := y + m.scrollPos, col := x } }
      let m := { m with selectedText := extractSelectedText m }
      -- a non-empty selection is copied to the clipboard collaborator;
      -- both the success and the failure path keep `selecting` set
      if m.selectedText ≠ [] then (m, .none)
      else ({ m with selecting := false }, .none)
    else (m, .none)
  | .keyCtrlP =>
    ({ m with
        providerSelector := m.providerSelector.activate,
        modelSelector := m.modelSelector.deactivate,
        temperatureSelector := m.temperatureSelector.deactivate }, .none)
  | .keyCtrlM =>
    ({ m with
        modelSelector := m.modelSelector.activate,
        providerSelector := m.providerSelector.deactivate,
        temperatureSelector := m.temperatureSelector.deactivate }, .none)
  | .keyCtrlT =>
    ({ m with
        temperatureSelector := m.temperatureSelector.activate,
        providerSelector := m.providerSelector.deactivate,
        modelSelector := m.modelSelector.deactivate }, .none)
  | .keyPgUp => ({ m.scrollPageUp with autoScrollBottom := false }, .none)
  | .keyPgDown =>
    let m := m.scrollPageDown
    (if m.scrollPos ≥ m.maxScroll then { m with autoScrollBottom := true } else m, .none)
  | .keyUp =>
    if m.providerSelector.isActive then
      ({ m with providerSelector := m.providerSelector.selectPrevious }, .none)
    else if m.modelSelector.isActive then
      ({ m with modelSelector := m.modelSelector.selectPrevious }, .none)
    else if m.temperatureSelector.isActive then
      ({ m with temperatureSelector := m.temperatureSelector.selectPrevious }, .none)
    else (m, .none)
  | .keyDown =>
    if m.providerSelector.isActive then
      ({ m with providerSelector := m.providerSelector.selectNext }, .none)
    else if m.modelSelector.isActive then
      ({ m with modelSelector := m.modelSelector.selectNext }, .none)
    else if m.temperatureSelector.isActive then
      ({ m with temperatureSelector := m.temperatureSelector.selectNext }, .none)
    else (m, .none)
  | .keyHome => ({ m.scrollToTop with autoScrollBottom := false }, .none)
  | .keyEnd => ({ m.scrollToBottom with autoScrollBottom := true }, .none)
  | .keyAltEnter =>
    ({ m with
        input := m.input.take m.cursor ++ '\n' :: m.input.drop m.cursor,
        cursor := m.cursor + 1 }, .none)
  | .keyCtrlCOrEsc env => updateKeyCtrlCOrEsc m env
  | .keyEnter env => updateKeyEnter m env
  | .keyLeft => (if 0 < m.cursor then { m with cursor := m.cursor - 1 } else m, .none)
  | .keyRight =>
    (if m.cursor < m.input.length then { m with cursor := m.cursor + 1 } else m, .none)
  | .keyDelete =>
    (if m.cursor < m.input.length then
      { m with input := m.input.take m.cursor ++ m.input.drop (m.cursor + 1) }
    else m, .none)
  | .keyBackspace =>
    (if 0 < m.cursor then
      { m with
          input := m.input.take (m.cursor - 1) ++ m.input.drop m.cursor,
          cursor := m.cursor - 1 }
    else m, .none)
  | .keySpace => ({ m with input := m.input ++ [' '], cursor := m.cursor + 1 }, .none)
  | .keyRunes runes env => updateKeyRunes m runes env

/-- Go `func initialInteractiveModel(input string) (interactiveModel, tea.Cmd)`. -/
def initialInteractiveModel (input : List Char) (env : Env) :
    InteractiveModel × Cmd :=
  let model : InteractiveModel :=
    { messages := [helloMessage env.providerInfo, systemMessage]
      input := []
      cursor := 0
      respChan := false
      width := 80
      height := 24
      scrollPos := 0
      enableInput := true
      apiKeyInputMode := false
      selecting := false
      selectionStart := { line := 0, col := 0 }
      selectionEnd := { line := 0, col := 0 }
      selectedText := []
      cursorVisible := true
      providerSelector :=
        { title := "Select a provider".toList, options := [],
          currentIndex := 0, isActive := false }
      modelSelector :=
        { title := "Select a model".toList, options := [],
          currentIndex := 0, isActive := false }
      temperatureSelector :=
        { title := "Select a temperature preset".toList, options := [],
          currentIndex := 0, isActive := false }
      autoScrollBottom := true }
  let model := refreshConfig env.refresh model
  let model :=
    if input ≠ [] then
      { model with messages := model.messages ++ [{ type := .User, content := input }] }
    else model
  (model, .blink)

/-- Folding a sequence of events through the event loop (the states the
session controller reaches). -/
def reach (m : InteractiveModel) (evs : List Event) : InteractiveModel :=
  evs.foldl (fun s e => (update s e).1) m

/-! ## Statement-side definitions for the claims -/

/-- Claim C4 as stated: some run of the `wrapText` loop finishes (some
fuel suffices) and its output, with the inserted newlines stripped,
reproduces the content (original newlines are indistinguishable from
inserted ones in the output, so both sides are compared with all
newlines stripped; for newline-free content this is exact
reproduction). -/
def wrapReproducesContent (text : List Char) (width prefixLen : Int) : Prop :=
  ∃ fuel out, wrapTextF fuel text width prefixLen = some out ∧
    out.filter (fun c => c != '\n') = text.filter (fun c => c != '\n')

/-- Whether the first `n` runes fit within `width` display cells. -/
def fitsWithin (runes : List Char) (width : Int) (n : Nat) : Bool :=
  (cells (runes.take n) : Int) ≤ width

/-- The width-limit position in the sense of the specification: the
maximal number of leading runes whose display width fits in `width`. -/
def maxFitSpec (runes : List Char) (width : Int) : Nat :=
  ((List.range (runes.length + 1)).filter (fitsWithin runes width)).foldl max 0

/-- The last whitespace index strictly before position `pos`, whitespace
in the ordinary sense (`Char.isWhitespace`), as claim C5 words it. -/
def lastWhitespaceBefore (runes : List Char) (pos : Nat) : Option Nat :=
  ((List.range pos).filter (fun i => (runes.getD i 'A').isWhitespace)).getLast?

/-- The breaking rule exactly as claim C5 states it: break immediately
after the last whitespace before the width limit when one exists,
otherwise hard-break at the width limit. -/
def breakPointSpec (runes : List Char) (width : Int) : Nat :=
  match lastWhitespaceBefore runes (maxFitSpec runes width) with
  | some i => i + 1
  | none => maxFitSpec runes width

/-- The breaking rule the code actually implements, stated semantically
(for a line whose runes exceed the width limit): writing `pos` for the
scan result `fbpGo width runes 0 0`, (a) `pos` is the maximal prefix
fitting within `width` display cells, and (b) the chosen break point is
one past the last space (U+0020) at an index in `[1, pos)` when such a
space exists, else `pos` itself. -/
def breakRuleHolds (runes : List Char) (width : Int) : Prop :=
  (cells (runes.take (fbpGo width runes 0 0)) : Int) ≤ width ∧
  width < (cells (runes.take (fbpGo width runes 0 0 + 1)) : Int) ∧
  ((∃ i, 1 ≤ i ∧ i < fbpGo width runes 0 0 ∧ runes.getD i 'A' = ' ' ∧
      findBreakPoint runes width = i + 1 ∧
      ∀ j, 1 ≤ j → j < fbpGo width runes 0 0 → runes.getD j 'A' = ' ' → j ≤ i) ∨
    ((∀ j, 1 ≤ j → j < fbpGo width runes 0 0 → runes.getD j 'A' ≠ ' ') ∧
      findBreakPoint runes width = fbpGo width runes 0 0))

/-- Number of selector widgets that are active. -/
def activeCount (m : InteractiveModel) : Nat :=
  (if m.providerSelector.isActive then 1 else 0) +
    (if m.modelSelector.isActive then 1 else 0) +
    (if m.temperatureSelector.isActive then 1 else 0)

/-- The message store holds a System message. -/
def containsSystemMessage (m : InteractiveModel) : Prop :=
  ∃ msg ∈ m.messages, msg.type = MessageType.System

instance (m : InteractiveModel) : Decidable (containsSystemMessage m) :=
  inferInstanceAs (Decidable (∃ msg ∈ m.messages, msg.type = MessageType.System))

/-- Discriminates the asynchronous stream-chunk events from the input
events. -/
def Event.isStreamResponse : Event → Bool
  | .streamResponse _ _ _ => true
  | _ => false

/-- The scroll-controller call alphabet of claim C7.  `up`/`down` carry
the line count the callers pass (3 for wheel ticks); `pageUp`/`pageDown`
use `height / 2` internally. -/
inductive ScrollOp where
  | up (n : Int)
  | down (n : Int)
  | pageUp
  | pageDown
  | toTop
  | toBottom
deriving DecidableEq, Repr

/-- Applying one scroll-controller call. -/
def applyScrollOp (m : InteractiveModel) : ScrollOp → InteractiveModel
  | .up n => m.scrollUp n
  | .down n => m.scrollDown n
  | .pageUp => m.scrollPageUp
  | .pageDown => m.scrollPageDown
  | .toTop => m.scrollToTop
  | .toBottom => m.scrollToBottom

/-- The scroll amounts the program passes are non-negative (wheel ticks
scroll by 3; the page operations derive their amount from the terminal
height). -/
def ScrollOp.nonneg : ScrollOp → Prop
  | .up n => 0 ≤ n
  | .down n => 0 ≤ n
  | _ => True

instance (op : ScrollOp) : Decidable op.nonneg :=
  match op with
  | .up n => inferInstanceAs (Decidable (0 ≤ n))
  | .down n => inferInstanceAs (Decidable (0 ≤ n))
  | .pageUp => inferInstanceAs (Decidable True)
  | .pageDown => inferInstanceAs (Decidable True)
  | .toTop => inferInstanceAs (Decidable True)
  | .toBottom => inferInstanceAs (Decidable True)

/-- The scroll position lies in the valid range
`[0, max(0, totalLines - viewportHeight)]`. -/
def scrollInRange (m : InteractiveModel) : Prop :=
  0 ≤ m.scrollPos ∧ m.scrollPos ≤ m.maxScroll

instance (m : InteractiveModel) : Decidable (scrollInRange m) :=
  inferInstanceAs (Decidable (0 ≤ m.scrollPos ∧ m.scrollPos ≤ m.maxScroll))


/-- A neutral collaborator environment: provider ready, requests succeed,
all collaborator-supplied lists empty. -/
def env0 : Env :=
  { providerReady := true
    sendError := none
    apiKeyError := none
    providerName := []
    providerInfo := []
    refresh :=
      { providerOptions := [], providerIndex := 0
        modelOptions := [], modelIndex := 0
        tempOptions := [], tempIndex := 0 } }

/-- A mid-stream state actually reached by the event loop: start from the
initial model, type "hi", press Enter (sends the turn, disables input),
and let the `startStreamingMsg` run (appends the in-flight Assistant
message and issues the first receive command). -/
def midStreamModel : InteractiveModel :=
  reach (initialInteractiveModel [] env0).1
    [.keyRunes "hi".toList env0, .keyEnter env0, .startStreaming env0]

/-- A three-option selector ("a","b","c") used as a concrete witness input. -/
def demoSelector : SelectorWidget :=
  { title := "Select a model".toList
    options :=
      [{ name := "a".toList, value := .str "a".toList },
       { name := "b".toList, value := .str "b".toList },
       { name := "c".toList, value := .str "c".toList }]
    currentIndex := 0
    isActive := true }

/-- A selector with an empty option list. -/
def emptySelector : SelectorWidget :=
  { title := [], options := [], currentIndex := 0, isActive := false }
/-- A small concrete session state used as witness input for the scroll
claims. -/
def smallModel : InteractiveModel :=
  { messages := [systemMessage, { type := .User, content := "hello there".toList }]
    input := []
    cursor := 0
    respChan := false
    width := 10
    height := 5
    scrollPos := 0
    enableInput := true
    apiKeyInputMode := false
    selecting := false
    selectionStart := { line := 0, col := 0 }
    selectionEnd := { line := 0, col := 0 }
    selectedText := []
    cursorVisible := true
    providerSelector := emptySelector
    modelSelector := emptySelector
    temperatureSelector := emptySelector
    autoScrollBottom := true }

/-- One call of each scroll operation, with the line counts the program
passes. -/
def demoOps : List ScrollOp :=
  [.up 3, .down 3, .pageUp, .pageDown, .toTop, .toBottom]

/-! ## Projection lemmas for the event-loop proofs -/

@[simp] theorem scrollUp_messages (m : InteractiveModel) (n : Int) :
    (m.scrollUp n).messages = m.messages := by
  unfold InteractiveModel.scrollUp
  split <;> rfl

@[simp] theorem scrollUp_providerSelector (m : InteractiveModel) (n : Int) :
    (m.scrollUp n).providerSelector = m.providerSelector := by
  unfold InteractiveModel.scrollUp
  split <;> rfl

@[simp] theorem scrollUp_modelSelector (m : InteractiveModel) (n : Int) :
    (m.scrollUp n).modelSelector = m.modelSelector := by
  unfold InteractiveModel.scrollUp
  split <;> rfl

@[simp] theorem scrollUp_temperatureSelector (m : InteractiveModel) (n : Int) :
    (m.scrollUp n).temperatureSelector = m.temperatureSelector := by
  unfold InteractiveModel.scrollUp
  split <;> rfl

@[simp] theorem scrollUp_input (m : InteractiveModel) (n : Int) :
    (m.scrollUp n).input = m.input := by
  unfold InteractiveModel.scrollUp
  split <;> rfl

@[simp] theorem scrollUp_apiKeyInputMode (m : InteractiveModel) (n : Int) :
    (m.scrollUp n).apiKeyInputMode = m.apiKeyInputMode := by
  unfold InteractiveModel.scrollUp
  split <;> rfl

@[simp] theorem scrollUp_enableInput (m : InteractiveModel) (n : Int) :
    (m.scrollUp n).enableInput = m.enableInput := by
  unfold InteractiveModel.scrollUp
  split <;> rfl

@[simp] theorem scrollDown_messages (m : InteractiveModel) (n : Int) :
    (m.scrollDown n).messages = m.messages := by
  unfold InteractiveModel.scrollDown
  rfl

@[simp] theorem scrollDown_providerSelector (m : InteractiveModel) (n : Int) :
    (m.scrollDown n).providerSelector = m.providerSelector := by
  unfold InteractiveModel.scrollDown
  rfl

@[simp] theorem scrollDown_modelSelector (m : InteractiveModel) (n : Int) :
    (m.scrollDown n).modelSelector = m.modelSelector := by
  unfold InteractiveModel.scrollDown
  rfl

@[simp] theorem scrollDown_temperatureSelector (m : InteractiveModel) (n : Int) :
    (m.scrollDown n).temperatureSelector = m.temperatureSelector := by
  unfold InteractiveModel.scrollDown
  rfl

@[simp] theorem scrollDown_input (m : InteractiveModel) (n : Int) :
    (m.scrollDown n).input = m.input := by
  unfold InteractiveModel.scrollDown
  rfl

@[simp] theorem scrollDown_apiKeyInputMode (m : InteractiveModel) (n : Int) :
    (m.scrollDown n).apiKeyInputMode = m.apiKeyInputMode := by
  unfold InteractiveModel.scrollDown
  rfl

@[simp] theorem scrollDown_enableInput (m : InteractiveModel) (n : Int) :
    (m.scrollDown n).enableInput = m.enableInput := by
  unfold InteractiveModel.scrollDown
  rfl

@[simp] theorem scrollToTop_messages (m : InteractiveModel) :
    (m.scrollToTop).messages = m.messages := by
  unfold InteractiveModel.scrollToTop
  split <;> rfl

@[simp] theorem scrollToTop_providerSelector (m : InteractiveModel) :
    (m.scrollToTop).providerSelector = m.providerSelector := by
  unfold InteractiveModel.scrollToTop
  split <;> rfl

@[simp] theorem scrollToTop_modelSelector (m : InteractiveModel) :
    (m.scrollToTop).modelSelector = m.modelSelector := by
  unfold InteractiveModel.scrollToTop
  split <;> rfl

@[simp] theorem scrollToTop_temperatureSelector (m : InteractiveModel) :
    (m.scrollToTop).temperatureSelector = m.temperatureSelector := by
  unfold InteractiveModel.scrollToTop
  split <;> rfl

@[simp] theorem scrollToTop_input (m : InteractiveModel) :
    (m.scrollToTop).input = m.input := by
  unfold InteractiveModel.scrollToTop
  split <;> rfl

@[simp] theorem scrollToTop_apiKeyInputMode (m : InteractiveModel) :
    (m.scrollToTop).apiKeyInputMode = m.apiKeyInputMode := by
  unfold InteractiveModel.scrollToTop
  split <;> rfl

@[simp] theorem scrollToTop_enableInput (m : InteractiveModel) :
    (m.scrollToTop).enableInput = m.enableInput := by
  unfold InteractiveModel.scrollToTop
  split <;> rfl

@[simp] theorem scrollToBottom_messages (m : InteractiveModel) :
    (m.scrollToBottom).messages = m.messages := by
  unfold InteractiveModel.scrollToBottom
  rfl

@[simp] theorem scrollToBottom_providerSelector (m : InteractiveModel) :
    (m.scrollToBottom).providerSelector = m.providerSelector := by
  unfold InteractiveModel.scrollToBottom
  rfl

@[simp] theorem scrollToBottom_modelSelector (m : InteractiveModel) :
    (m.scrollToBottom).modelSelector = m.modelSelector := by
  unfold InteractiveModel.scrollToBottom
  rfl

@[simp] theorem scrollToBottom_temperatureSelector (m : InteractiveModel) :
    (m.scrollToBottom).temperatureSelector = m.temperatureSelector := by
  unfold InteractiveModel.scrollToBottom
  rfl

@[simp] theorem scrollToBottom_input (m : InteractiveModel) :
    (m.scrollToBottom).input = m.input := by
  unfold InteractiveModel.scrollToBottom
  rfl

@[simp] theorem scrollToBottom_apiKeyInputMode (m : InteractiveModel) :
    (m.scrollToBottom).apiKeyInputMode = m.apiKeyInputMode := by
  unfold InteractiveModel.scrollToBottom
  rfl

@[simp] theorem scrollToBottom_enableInput (m : InteractiveModel) :
    (m.scrollToBottom).enableInput = m.enableInput := by
  unfold InteractiveModel.scrollToBottom
  rfl

@[simp] theorem scrollPageUp_messages (m : InteractiveModel) :
    (m.scrollPageUp).messages = m.messages := by
  unfold InteractiveModel.scrollPageUp
  rw [scrollUp_messages]
  split <;> rfl

@[simp] theorem scrollPageDown_messages (m : InteractiveModel) :
    (m.scrollPageDown).messages = m.messages := by
  unfold InteractiveModel.scrollPageDown
  rw [scrollDown_messages]

@[simp] theorem scrollPageUp_providerSelector (m : InteractiveModel) :
    (m.scrollPageUp).providerSelector = m.providerSelector := by
  unfold InteractiveModel.scrollPageUp
  rw [scrollUp_providerSelector]
  split <;> rfl

@[simp] theorem scrollPageDown_providerSelector (m : InteractiveModel) :
    (m.scrollPageDown).providerSelector = m.providerSelector := by
  unfold InteractiveModel.scrollPageDown
  rw [scrollDown_providerSelector]

@[simp] theorem scrollPageUp_modelSelector (m : InteractiveModel) :
    (m.scrollPageUp).modelSelector = m.modelSelector := by
  unfold InteractiveModel.scrollPageUp
  rw [scrollUp_modelSelector]
  split <;> rfl

@[simp] theorem scrollPageDown_modelSelector (m : InteractiveModel) :
    (m.scrollPageDown).modelSelector = m.modelSelector := by
  unfold InteractiveModel.scrollPageDown
  rw [scrollDown_modelSelector]

@[simp] theorem scrollPageUp_temperatureSelector (m : InteractiveModel) :
    (m.scrollPageUp).temperatureSelector = m.temperatureSelector := by
  unfold InteractiveModel.scrollPageUp
  rw [scrollUp_temperatureSelector]
  split <;> rfl

@[simp] theorem scrollPageDown_temperatureSelector (m : InteractiveModel) :
    (m.scrollPageDown).temperatureSelector = m.temperatureSelector := by
  unfold InteractiveModel.scrollPageDown
  rw [scrollDown_temperatureSelector]

@[simp] theorem scrollPageUp_input (m : InteractiveModel) :
    (m.scrollPageUp).input = m.input := by
  unfold InteractiveModel.scrollPageUp
  rw [scrollUp_input]
  split <;> rfl

@[simp] theorem scrollPageDown_input (m : InteractiveModel) :
    (m.scrollPageDown).input = m.input := by
  unfold InteractiveModel.scrollPageDown
  rw [scrollDown_input]

@[simp] theorem scrollPageUp_apiKeyInputMode (m : InteractiveModel) :
    (m.scrollPageUp).apiKeyInputMode = m.apiKeyInputMode := by
  unfold InteractiveModel.scrollPageUp
  rw [scrollUp_apiKeyInputMode]
  split <;> rfl

@[simp] theorem scrollPageDown_apiKeyInputMode (m : InteractiveModel) :
    (m.scrollPageDown).apiKeyInputMode = m.apiKeyInputMode := by
  unfold InteractiveModel.scrollPageDown
  rw [scrollDown_apiKeyInputMode]

@[simp] theorem scrollPageUp_enableInput (m : InteractiveModel) :
    (m.scrollPageUp).enableInput = m.enableInput := by
  unfold InteractiveModel.scrollPageUp
  rw [scrollUp_enableInput]
  split <;> rfl

@[simp] theorem scrollPageDown_enableInput (m : InteractiveModel) :
    (m.scrollPageDown).enableInput = m.enableInput := by
  unfold InteractiveModel.scrollPageDown
  rw [scrollDown_enableInput]

@[simp] theorem activate_isActive (s : SelectorWidget) : s.activate.isActive = true := rfl

@[simp] theorem deactivate_isActive (s : SelectorWidget) : s.deactivate.isActive = false := rfl

@[simp] theorem confirm_isActive (s : SelectorWidget) : s.confirm.isActive = false := rfl

@[simp] theorem selectNext_isActive (s : SelectorWidget) : s.selectNext.isActive = s.isActive := by
  unfold SelectorWidget.selectNext
  split <;> rfl

@[simp] theorem selectPrevious_isActive (s : SelectorWidget) :
    s.selectPrevious.isActive = s.isActive := by
  unfold SelectorWidget.selectPrevious
  split <;> rfl

@[simp] theorem selectByIndex_isActive (s : SelectorWidget) (i : Int) :
    (s.selectByIndex i).1.isActive = s.isActive := by
  unfold SelectorWidget.selectByIndex
  split <;> rfl

@[simp] theorem refreshConfig_messages (rd : RefreshData) (m : InteractiveModel) :
    (refreshConfig rd m).messages = m.messages := rfl

@[simp] theorem refreshConfig_provider_isActive (rd : RefreshData) (m : InteractiveModel) :
    (refreshConfig rd m).providerSelector.isActive = m.providerSelector.isActive := rfl

@[simp] theorem refreshConfig_model_isActive (rd : RefreshData) (m : InteractiveModel) :
    (refreshConfig rd m).modelSelector.isActive = m.modelSelector.isActive := rfl

@[simp] theorem refreshConfig_temperature_isActive (rd : RefreshData) (m : InteractiveModel) :
    (refreshConfig rd m).temperatureSelector.isActive = m.temperatureSelector.isActive := rfl

@[simp] theorem enterSettingAPIKeyMode_messages (m : InteractiveModel) (name : List Char) :
    (enterSettingAPIKeyMode m name).messages =
      m.messages ++
        [{ type := .Chait,
           content := "Please enter your API key of ".toList ++ name ++ [':'] }] := by
  unfold enterSettingAPIKeyMode
  rw [scrollToBottom_messages]

@[simp] theorem enterSettingAPIKeyMode_providerSelector (m : InteractiveModel)
    (name : List Char) :
    (enterSettingAPIKeyMode m name).providerSelector = m.providerSelector := by
  unfold enterSettingAPIKeyMode
  rw [scrollToBottom_providerSelector]

@[simp] theorem enterSettingAPIKeyMode_modelSelector (m : InteractiveModel)
    (name : List Char) :
    (enterSettingAPIKeyMode m name).modelSelector = m.modelSelector := by
  unfold enterSettingAPIKeyMode
  rw [scrollToBottom_modelSelector]

@[simp] theorem enterSettingAPIKeyMode_temperatureSelector (m : InteractiveModel)
    (name : List Char) :
    (enterSettingAPIKeyMode m name).temperatureSelector = m.temperatureSelector := by
  unfold enterSettingAPIKeyMode
  rw [scrollToBottom_temperatureSelector]

/-! ## Layout engine lemmas -/

theorem cells_nil : cells [] = 0 := rfl

theorem cells_cons (r : Char) (l : List Char) :
    cells (r :: l) = runeWidth r + cells l := by
  simp [cells]

theorem runeWidth_le_two (c : Char) : runeWidth c ≤ 2 := by
  unfold runeWidth
  split
  · omega
  · split <;> omega

/-- The scan position never moves backwards past runes already counted. -/
theorem fbpGo_ge (width : Int) :
    ∀ (rs : List Char) (vw : Int) (i : Nat), i ≤ fbpGo width rs vw i := by
  intro rs
  induction rs with
  | nil => intro vw i; simp [fbpGo]
  | cons r rs ih =>
    intro vw i
    simp only [fbpGo]
    split
    · exact le_refl i
    · exact le_trans (Nat.le_succ i) (ih _ _)

/-- A successful backward space scan returns at least 2 (the space is at
index ≥ 1 and the break point includes it). -/
theorem lastSpaceFrom_some_ge (runes : List Char) :
    ∀ j k, lastSpaceFrom runes j = some k → 2 ≤ k := by
  intro j
  induction j with
  | zero => intro k h; simp [lastSpaceFrom] at h
  | succ n ih =>
    intro k h
    simp only [lastSpaceFrom] at h
    split at h
    · injection h with h
      omega
    · exact ih k h

/-- With a full-width budget of at least 2 cells every rune fits, so the
break point of a non-empty line is positive: the wrapping loop always
consumes at least one rune. -/
theorem findBreakPoint_pos (runes : List Char) (width : Int)
    (hw : 2 ≤ width) (hne : runes ≠ []) : 1 ≤ findBreakPoint runes width := by
  obtain ⟨r, rs, rfl⟩ : ∃ r rs, runes = r :: rs := by
    cases runes with
    | nil => exact absurd rfl hne
    | cons r rs => exact ⟨r, rs, rfl⟩
  have hpos : 1 ≤ fbpGo width (r :: rs) 0 0 := by
    have hr : (runeWidth r : Int) ≤ 2 := by exact_mod_cast runeWidth_le_two r
    simp only [fbpGo]
    split
    · next h => exfalso; omega
    · exact fbpGo_ge width rs _ 1
  simp only [findBreakPoint, List.length_cons]
  rw [if_neg (by omega)]
  split
  · exact hpos
  · split
    · next k hk => exact le_trans (by omega) (lastSpaceFrom_some_ge _ _ k hk)
    · exact hpos

/-- Totality and content preservation of the wrapping loop once the line
budget is the full width (every continuation chunk): with `2 ≤ width`
each iteration consumes at least one rune, so `length + 1` iterations of
fuel suffice, and the output with newlines stripped is the input with
newlines stripped. -/
theorem wrapLine_total_width (width : Int) (hw : 2 ≤ width) :
    ∀ (fuel : Nat) (runes : List Char), runes.length < fuel →
      ∃ out, wrapLineFuel width fuel runes width = some out ∧
        out.filter (fun c => c != '\n') = runes.filter (fun c => c != '\n') := by
  intro fuel
  induction fuel with
  | zero => intro runes h; exact absurd h (Nat.not_lt_zero _)
  | succ f ih =>
    intro runes h
    match runes with
    | [] => exact ⟨[], rfl, rfl⟩
    | r :: rs =>
      have hbp : 1 ≤ findBreakPoint (r :: rs) width :=
        findBreakPoint_pos (r :: rs) width hw (by simp)
      by_cases hrest : ((r :: rs).drop (findBreakPoint (r :: rs) width)).isEmpty
      · refine ⟨(r :: rs).take (findBreakPoint (r :: rs) width), ?_, ?_⟩
        · simp only [wrapLineFuel]
          rw [if_pos hrest]
        · have hdrop : (r :: rs).drop (findBreakPoint (r :: rs) width) = [] :=
            List.isEmpty_iff.mp hrest
          have := List.take_append_drop (findBreakPoint (r :: rs) width) (r :: rs)
          rw [hdrop, List.append_nil] at this
          rw [this]
      · have hlen : ((r :: rs).drop (findBreakPoint (r :: rs) width)).length < f := by
          rw [List.length_drop]
          simp only [List.length_cons] at h ⊢
          omega
        obtain ⟨out, hout, hfil⟩ := ih _ hlen
        refine ⟨(r :: rs).take (findBreakPoint (r :: rs) width) ++ '\n' :: out, ?_, ?_⟩
        · simp only [wrapLineFuel]
          rw [if_neg hrest, hout]
        · rw [List.filter_append, List.filter_cons]
          simp only [bne_self_eq_false, Bool.false_eq_true, if_neg, ite_false]
          rw [hfil, ← List.filter_append, List.take_append_drop]

/-- Totality and content preservation of the wrapping loop for the first
chunk, whose budget `cw = width - prefixLen` is arbitrary (it can even be
negative: the loop then emits an empty chunk and a newline once and
continues with the full width).  One extra unit of fuel absorbs that
possible non-consuming first iteration. -/
theorem wrapLine_total (width cw : Int) (hw : 2 ≤ width) (fuel : Nat)
    (runes : List Char) (h : runes.length + 1 < fuel) :
    ∃ out, wrapLineFuel width fuel runes cw = some out ∧
      out.filter (fun c => c != '\n') = runes.filter (fun c => c != '\n') := by
  match fuel with
  | 0 => exact absurd h (Nat.not_lt_zero _)
  | f + 1 =>
    match runes with
    | [] => exact ⟨[], rfl, rfl⟩
    | r :: rs =>
      by_cases hrest : ((r :: rs).drop (findBreakPoint (r :: rs) cw)).isEmpty
      · refine ⟨(r :: rs).take (findBreakPoint (r :: rs) cw), ?_, ?_⟩
        · simp only [wrapLineFuel]
          rw [if_pos hrest]
        · have hdrop : (r :: rs).drop (findBreakPoint (r :: rs) cw) = [] :=
            List.isEmpty_iff.mp hrest
          have := List.take_append_drop (findBreakPoint (r :: rs) cw) (r :: rs)
          rw [hdrop, List.append_nil] at this
          rw [this]
      · have hlen : ((r :: rs).drop (findBreakPoint (r :: rs) cw)).length < f := by
          rw [List.length_drop]
          simp only [List.length_cons] at h ⊢
          omega
        obtain ⟨out, hout, hfil⟩ := wrapLine_total_width width hw f _ hlen
        refine ⟨(r :: rs).take (findBreakPoint (r :: rs) cw) ++ '\n' :: out, ?_, ?_⟩
        · simp only [wrapLineFuel]
          rw [if_neg hrest, hout]
        · rw [List.filter_append, List.filter_cons]
          simp only [bne_self_eq_false, Bool.false_eq_true, if_neg, ite_false]
          rw [hfil, ← List.filter_append, List.take_append_drop]

theorem splitLines_ne_nil (text : List Char) : splitLines text ≠ [] := by
  induction text with
  | nil => simp [splitLines]
  | cons c cs ih =>
    simp only [splitLines]
    split
    · simp
    · split <;> simp

theorem length_le_of_mem_splitLines :
    ∀ (text : List Char), ∀ l ∈ splitLines text, l.length ≤ text.length := by
  intro text
  induction text with
  | nil =>
    intro l hl
    simp only [splitLines, List.mem_singleton] at hl
    simp [hl]
  | cons c cs ih =>
    intro l hl
    simp only [splitLines] at hl
    by_cases hc : c = '\n'
    · rw [if_pos hc] at hl
      rcases List.mem_cons.mp hl with rfl | hl
      · simp
      · exact le_trans (ih l hl) (Nat.le_succ _)
    · rw [if_neg hc] at hl
      rcases hsp : splitLines cs with _ | ⟨x, xs⟩
      · rw [hsp] at hl
        simp only [List.mem_singleton] at hl
        simp [hl]
      · rw [hsp] at hl
        rcases List.mem_cons.mp hl with rfl | hl
        · have hx : x ∈ splitLines cs := by rw [hsp]; exact List.mem_cons_self x xs
          simpa using Nat.succ_le_succ (ih x hx)
        · have hx : l ∈ splitLines cs := by rw [hsp]; exact List.mem_cons_of_mem x hl
          exact le_trans (ih l hx) (Nat.le_succ _)

theorem joinLines_splitLines : ∀ text : List Char, joinLines (splitLines text) = text := by
  intro text
  induction text with
  | nil => rfl
  | cons c cs ih =>
    simp only [splitLines]
    by_cases hc : c = '\n'
    · rw [if_pos hc]
      rcases hsp : splitLines cs with _ | ⟨x, xs⟩
      · exact absurd hsp (splitLines_ne_nil cs)
      · subst hc
        rw [hsp] at ih
        show '\n' :: joinLines (x :: xs) = '\n' :: cs
        rw [ih]
    · rw [if_neg hc]
      rcases hsp : splitLines cs with _ | ⟨x, xs⟩
      · exact absurd hsp (splitLines_ne_nil cs)
      · rw [hsp] at ih
        cases xs with
        | nil =>
          show c :: x = c :: cs
          rw [show joinLines [x] = x from rfl] at ih
          rw [ih]
        | cons y ys =>
          show (c :: x) ++ '\n' :: joinLines (y :: ys) = c :: cs
          rw [← ih]
          rfl

theorem filter_joinLines :
    ∀ ls : List (List Char),
      (joinLines ls).filter (fun c => c != '\n') =
        (ls.map (List.filter (fun c => c != '\n'))).flatten := by
  intro ls
  induction ls with
  | nil => rfl
  | cons l ls ih =>
    cases ls with
    | nil => simp [joinLines]
    | cons l2 ls2 =>
      show (l ++ '\n' :: joinLines (l2 :: ls2)).filter (fun c => c != '\n') = _
      rw [List.filter_append, List.filter_cons]
      simp only [bne_self_eq_false, Bool.false_eq_true, ite_false]
      rw [ih]
      simp

/-- Wrapping every source line of a message succeeds with uniform fuel and
preserves each line's newline-stripped content. -/
theorem wrap_all_lines (width cw : Int) (hw : 2 ≤ width) (fuel : Nat) :
    ∀ ls : List (List Char), (∀ l ∈ ls, l.length + 1 < fuel) →
      ∃ outs,
        allSome (ls.map (fun line => wrapLineFuel width fuel line cw)) = some outs ∧
        outs.map (List.filter (fun c => c != '\n')) =
          ls.map (List.filter (fun c => c != '\n')) := by
  intro ls
  induction ls with
  | nil => intro _; exact ⟨[], rfl, rfl⟩
  | cons l ls ih =>
    intro h
    obtain ⟨out, hout, hfil⟩ :=
      wrapLine_total width cw hw fuel l (h l (List.mem_cons_self l ls))
    obtain ⟨outs, houts, hfils⟩ := ih (fun x hx => h x (List.mem_cons_of_mem l hx))
    refine ⟨out :: outs, ?_, ?_⟩
    · simp [allSome, hout, houts]
    · simp [hfil, hfils]

/-- C4 (amended): for every content, every width of at least 2 cells and
every prefix length, the wrapText loop terminates within `length + 2`
iterations of fuel per line and the produced lines, with the newlines it
inserted stripped out, reproduce the original content exactly (the
comparison strips all newlines from both sides, which for the inserted
newlines is exactly the removal the claim describes and on the content
side removes only the pre-existing line breaks that the output carries
over verbatim). -/
theorem wrapText_roundTrip (text : List Char) (w p : Int) (hw : 2 ≤ w) :
    ∃ out, wrapTextF (text.length + 2) text w p = some out ∧
      out.filter (fun c => c != '\n') = text.filter (fun c => c != '\n') := by
  have hfuel : ∀ l ∈ splitLines text, l.length + 1 < text.length + 2 := by
    intro l hl
    have := length_le_of_mem_splitLines text l hl
    omega
  obtain ⟨outs, houts, hfils⟩ :=
    wrap_all_lines w (w - p) hw (text.length + 2) (splitLines text) hfuel
  refine ⟨joinLines outs, ?_, ?_⟩
  · unfold wrapTextF
    rw [if_neg (by omega), houts]
  · rw [filter_joinLines, hfils, ← filter_joinLines, joinLines_splitLines]

/-- Witness for `wrapText_roundTrip` at content "hello world", width 8,
prefix length 0. -/
theorem wrapText_roundTrip_witness :
    (2 : Int) ≤ 8 ∧
      ∃ out, wrapTextF ("hello world".toList.length + 2) "hello world".toList 8 0 = some out ∧
        out.filter (fun c => c != '\n') = "hello world".toList.filter (fun c => c != '\n') :=
  ⟨by norm_num, wrapText_roundTrip "hello world".toList 8 0 (by norm_num)⟩

/-! ## Divergence of the wrapping loop (claims C3 / C4) -/

/-- At budget 1 with a wide glyph at the head of the line the Go loop is
stuck: `findBreakPoint` returns 0, no rune is consumed, and the budget is
reset to the same `width = 1`, so no amount of fuel finishes the line. -/
theorem wrapLine_wide_stuck : ∀ fuel, wrapLineFuel 1 fuel ['中'] 1 = none := by
  intro fuel
  induction fuel with
  | zero => rfl
  | succ f ih =>
    simp only [wrapLineFuel]
    rw [show findBreakPoint ['中'] 1 = 0 from by decide]
    simp [ih]

/-- The whole `wrapText` call diverges on content "中" at width 1. -/
theorem wrapTextF_wide_none : ∀ fuel, wrapTextF fuel ['中'] 1 0 = none := by
  intro fuel
  unfold wrapTextF
  rw [if_neg (by omega)]
  have hsp : splitLines ['中'] = [['中']] := by decide
  rw [hsp]
  simp [allSome, wrapLine_wide_stuck fuel]

/-- C3: the claim that `wrapText` terminates for every text, width and
prefix length is wrong about the code; intent is clearly termination
(the wrapping loop is the render path), so this is a code bug.  At
width 1 with a wide (2-cell) glyph, `findBreakPoint` returns 0, the loop
consumes nothing and `wrapText "中" 1 0` never returns: the first
conjunct shows the stuck break point, the second that no iteration bound
whatsoever completes the call. -/
theorem wrapText_diverges_on_narrow_wide_glyph :
    findBreakPoint ['中'] 1 = 0 ∧ ∀ fuel, wrapTextF fuel ['中'] 1 0 = none :=
  ⟨by decide, wrapTextF_wide_none⟩

/-- Counterexample to C4 as stated: at width 1 (> 0) and content "中" the
wrap operation produces no lines at all (the loop diverges), so no
concatenation of produced lines reproduces the content. -/
theorem wrapText_roundtrip_fails_at_width_one :
    (0 : Int) < 1 ∧ ¬ wrapReproducesContent ['中'] 1 0 := by
  refine ⟨by norm_num, ?_⟩
  rintro ⟨fuel, out, h, -⟩
  rw [wrapTextF_wide_none fuel] at h
  exact Option.noConfusion h

/-! ## The breaking rule (claim C5) -/

/-- Full characterization of the greedy scan loop with its accumulators:
starting with `i` runes already consumed at accumulated width `vw ≤ width`,
it consumes the maximal further prefix that keeps the total within
`width`. -/
theorem fbpGo_char (width : Int) :
    ∀ (rs : List Char) (vw : Int) (i : Nat), vw ≤ width →
      ∃ k, k ≤ rs.length ∧ fbpGo width rs vw i = i + k ∧
        vw + (cells (rs.take k) : Int) ≤ width ∧
        (k < rs.length → width < vw + (cells (rs.take (k + 1)) : Int)) := by
  intro rs
  induction rs with
  | nil =>
    intro vw i h
    exact ⟨0, le_refl 0, rfl, by simpa [cells] using h, fun hk => absurd hk (by simp)⟩
  | cons r rs ih =>
    intro vw i h
    simp only [fbpGo]
    split
    · next hgt =>
      refine ⟨0, by simp, rfl, by simpa [cells] using h, fun _ => ?_⟩
      rw [List.take_succ_cons, List.take_zero, cells_cons, cells_nil]
      push_cast
      omega
    · next hgt =>
      have hle : vw + (runeWidth r : Int) ≤ width := by omega
      obtain ⟨k, hk1, hk2, hk3, hk4⟩ := ih (vw + (runeWidth r : Int)) (i + 1) hle
      refine ⟨k + 1, by simpa using Nat.succ_le_succ hk1, by rw [hk2]; omega, ?_, ?_⟩
      · rw [List.take_succ_cons, cells_cons]
        push_cast
        omega
      · intro hlt
        have hk := hk4 (by simpa using Nat.lt_of_succ_lt_succ hlt)
        rw [List.take_succ_cons, cells_cons]
        push_cast
        push_cast at hk
        omega

/-- The scan position is the maximal width-fitting prefix length. -/
theorem fbpGo_maxfit (runes : List Char) (width : Int) (hw : 0 ≤ width) :
    fbpGo width runes 0 0 ≤ runes.length ∧
      (cells (runes.take (fbpGo width runes 0 0)) : Int) ≤ width ∧
      (fbpGo width runes 0 0 < runes.length →
        width < (cells (runes.take (fbpGo width runes 0 0 + 1)) : Int)) := by
  obtain ⟨k, hk1, hk2, hk3, hk4⟩ := fbpGo_char width runes 0 0 hw
  rw [hk2]
  simp only [Nat.zero_add]
  exact ⟨hk1, by simpa using hk3, fun h => by simpa using hk4 h⟩

/-- A successful backward scan finds the greatest space index in `[1, j]`
and returns its successor. -/
theorem lastSpaceFrom_char_some (runes : List Char) :
    ∀ j k, lastSpaceFrom runes j = some k →
      ∃ i, 1 ≤ i ∧ i ≤ j ∧ runes.getD i 'A' = ' ' ∧ k = i + 1 ∧
        ∀ i2, 1 ≤ i2 → i2 ≤ j → runes.getD i2 'A' = ' ' → i2 ≤ i := by
  intro j
  induction j with
  | zero => intro k h; simp [lastSpaceFrom] at h
  | succ n ih =>
    intro k h
    simp only [lastSpaceFrom] at h
    split at h
    · next hsp =>
      injection h with h
      exact ⟨n + 1, by omega, le_refl _, hsp, by omega, fun i2 _ h2 _ => h2⟩
    · next hsp =>
      obtain ⟨i, hi1, hi2, hi3, hi4, hi5⟩ := ih k h
      refine ⟨i, hi1, le_trans hi2 (Nat.le_succ n), hi3, hi4, ?_⟩
      intro i2 h1 h2 h3
      rcases Nat.lt_or_ge i2 (n + 1) with hlt | hge
      · exact hi5 i2 h1 (by omega) h3
      · exfalso
        have hi2n : i2 = n + 1 := by omega
        rw [hi2n] at h3
        exact hsp h3

/-- A failed backward scan means no space occurs at any index in `[1, j]`. -/
theorem lastSpaceFrom_char_none (runes : List Char) :
    ∀ j, lastSpaceFrom runes j = none →
      ∀ i, 1 ≤ i → i ≤ j → runes.getD i 'A' ≠ ' ' := by
  intro j
  induction j with
  | zero => intro _ i h1 h2; exact absurd h2 (by omega)
  | succ n ih =>
    intro h i h1 h2
    simp only [lastSpaceFrom] at h
    split at h
    · exact Option.noConfusion h
    · next hsp =>
      rcases Nat.lt_or_ge i (n + 1) with hlt | hge
      · exact ih h i h1 (by omega)
      · have hin : i = n + 1 := by omega
        rw [hin]
        exact hsp

/-- C5 (amended): for every line exceeding the width limit (`0 ≤ width`),
the break point of `findBreakPoint` lies one past the last space
character occurring strictly after the start of the line and before the
width-limit position; when no such space exists (the code never breaks
at a space at index 0 and treats only U+0020 as whitespace) it
hard-breaks at the width-limit position, the maximal prefix fitting
`width` cells; and the width-20 User scenario wraps
"aaaaaaaaaa bbbbbbbbbb" into exactly the two lines "aaaaaaaaaa " and
"bbbbbbbbbb", the first at most 20 cells including the "> " prefix. -/
theorem findBreakPoint_breaking_rule (runes : List Char) (width : Int)
    (hw : 0 ≤ width) (hne : runes ≠ [])
    (hex : fbpGo width runes 0 0 < runes.length) :
    breakRuleHolds runes width ∧
      (wrapTextF 23 "aaaaaaaaaa bbbbbbbbbb".toList 20 2 =
          some "aaaaaaaaaa \nbbbbbbbbbb".toList ∧
        splitLines "aaaaaaaaaa \nbbbbbbbbbb".toList =
          ["aaaaaaaaaa ".toList, "bbbbbbbbbb".toList] ∧
        cells "> ".toList + cells "aaaaaaaaaa ".toList ≤ 20) := by
  obtain ⟨hle, hfit, hover⟩ := fbpGo_maxfit runes width hw
  refine ⟨⟨hfit, hover hex, ?_⟩, by decide⟩
  have hlen0 : ¬ runes.length = 0 := by
    cases runes
    · exact absurd rfl hne
    · simp
  unfold findBreakPoint
  rw [if_neg hlen0]
  simp only []
  rw [if_neg (Nat.ne_of_lt hex)]
  rcases hls : lastSpaceFrom runes (fbpGo width runes 0 0 - 1) with _ | k
  · exact Or.inr
      ⟨fun j hj1 hj2 => lastSpaceFrom_char_none runes _ hls j hj1 (by omega), rfl⟩
  · obtain ⟨i, hi1, hi2, hi3, hi4, hi5⟩ := lastSpaceFrom_char_some runes _ k hls
    exact Or.inl
      ⟨i, hi1, by omega, hi3, by simpa using hi4,
        fun j h1 h2 h3 => hi5 j h1 (by omega) h3⟩

/-- Witness for `findBreakPoint_breaking_rule` at the scenario line
"aaaaaaaaaa bbbbbbbbbb" with first-chunk budget 18 = 20 − 2. -/
theorem findBreakPoint_breaking_rule_witness :
    (0 : Int) ≤ 18 ∧ "aaaaaaaaaa bbbbbbbbbb".toList ≠ [] ∧
      fbpGo 18 "aaaaaaaaaa bbbbbbbbbb".toList 0 0 <
        "aaaaaaaaaa bbbbbbbbbb".toList.length ∧
      (breakRuleHolds "aaaaaaaaaa bbbbbbbbbb".toList 18 ∧
        (wrapTextF 23 "aaaaaaaaaa bbbbbbbbbb".toList 20 2 =
            some "aaaaaaaaaa \nbbbbbbbbbb".toList ∧
          splitLines "aaaaaaaaaa \nbbbbbbbbbb".toList =
            ["aaaaaaaaaa ".toList, "bbbbbbbbbb".toList] ∧
          cells "> ".toList + cells "aaaaaaaaaa ".toList ≤ 20)) :=
  ⟨by norm_num, by decide, by decide,
    findBreakPoint_breaking_rule "aaaaaaaaaa bbbbbbbbbb".toList 18
      (by norm_num) (by decide) (by decide)⟩

/-- Counterexample to C5 as stated: the code's rule is not "break after
the last whitespace before the width limit".  A space at index 0 is
ignored (first input: the spec rule breaks at 1, the code at the width
limit 3), and non-space whitespace such as a tab is ignored too (second
input: the spec rule breaks at 2, the code at 3).  Both lines exceed the
width limit. -/
theorem findBreakPoint_differs_from_spec_rule :
    (maxFitSpec [' ', 'a', 'a', 'a', 'a', 'a'] 3 < 6 ∧
      findBreakPoint [' ', 'a', 'a', 'a', 'a', 'a'] 3 ≠
        breakPointSpec [' ', 'a', 'a', 'a', 'a', 'a'] 3) ∧
    (maxFitSpec ['a', '\t', 'b', 'b'] 2 < 4 ∧
      findBreakPoint ['a', '\t', 'b', 'b'] 2 ≠ breakPointSpec ['a', '\t', 'b', 'b'] 2) := by
  decide

/-! ## Selector widget (claim C9) -/

/-- Iterating `selectNext` adds the iteration count modulo the option
count to a valid current index (only the index field changes). -/
theorem selectNext_iterate (t : List Char) (opts : List SelectorOption)
    (act : Bool) (idx : Int) (h0 : 0 ≤ idx) (hN : idx < (opts.length : Int)) :
    ∀ n : Nat,
      (SelectorWidget.selectNext)^[n] ⟨t, opts, idx, act⟩ =
        ⟨t, opts, (idx + n) % (opts.length : Int), act⟩ := by
  have hlen : ¬ opts.length = 0 := by
    intro h
    rw [h] at hN
    push_cast at hN
    omega
  intro n
  induction n with
  | zero =>
    simp only [Function.iterate_zero_apply, Nat.cast_zero, add_zero]
    rw [Int.emod_eq_of_lt h0 hN]
  | succ n ih =>
    rw [Function.iterate_succ_apply', ih]
    show SelectorWidget.selectNext _ = _
    unfold SelectorWidget.selectNext
    rw [if_neg hlen]
    simp only [SelectorWidget.mk.injEq, true_and, and_true]
    push_cast
    conv_lhs => rw [Int.add_emod ((idx + (n : Int)) % (opts.length : Int)) 1]
    conv_rhs => rw [← add_assoc, Int.add_emod (idx + (n : Int)) 1]
    rw [Int.emod_emod_of_dvd _ dvd_rfl]

/-- Iterating `selectPrevious` subtracts the iteration count modulo the
option count from a valid current index. -/
theorem selectPrevious_iterate (t : List Char) (opts : List SelectorOption)
    (act : Bool) (idx : Int) (h0 : 0 ≤ idx) (hN : idx < (opts.length : Int)) :
    ∀ n : Nat,
      (SelectorWidget.selectPrevious)^[n] ⟨t, opts, idx, act⟩ =
        ⟨t, opts, (idx - n) % (opts.length : Int), act⟩ := by
  have hlen : ¬ opts.length = 0 := by
    intro h
    rw [h] at hN
    push_cast at hN
    omega
  intro n
  induction n with
  | zero =>
    simp only [Function.iterate_zero_apply, Nat.cast_zero, sub_zero]
    rw [Int.emod_eq_of_lt h0 hN]
  | succ n ih =>
    rw [Function.iterate_succ_apply', ih]
    show SelectorWidget.selectPrevious _ = _
    unfold SelectorWidget.selectPrevious
    rw [if_neg hlen]
    simp only [SelectorWidget.mk.injEq, true_and, and_true]
    push_cast
    rw [show (idx - (n : Int)) % (opts.length : Int) - 1 + (opts.length : Int) =
          (idx - (n : Int)) % (opts.length : Int) - 1 + (opts.length : Int) * 1 from by ring]
    rw [Int.add_mul_emod_self_left]
    conv_lhs => rw [Int.sub_emod ((idx - (n : Int)) % (opts.length : Int)) 1]
    conv_rhs => rw [← sub_sub, Int.sub_emod (idx - (n : Int)) (1 : Int)]
    rw [Int.emod_emod_of_dvd _ dvd_rfl]

/-- C9: on a selector with N > 0 options and a valid current index,
`selectNext` and `selectPrevious` cycle modulo N — N consecutive calls of
either restore the widget exactly; on an empty option list `selectNext`,
`selectPrevious` and `selectByIndex` leave the widget unchanged (with
`selectByIndex` reporting false); and `selectByIndex i` sets the index
and reports true exactly when `0 ≤ i < N`, else leaves the widget
unchanged and reports false. -/
theorem selector_cycle_and_bounds (w w0 : SelectorWidget) (j : Int)
    (h0 : 0 ≤ w.currentIndex) (hN : w.currentIndex < (w.options.length : Int))
    (hempty : w0.options = []) :
    (SelectorWidget.selectNext)^[w.options.length] w = w ∧
    (SelectorWidget.selectPrevious)^[w.options.length] w = w ∧
    w0.selectNext = w0 ∧ w0.selectPrevious = w0 ∧ w0.selectByIndex j = (w0, false) ∧
    (∀ i : Int, 0 ≤ i → i < (w.options.length : Int) →
      w.selectByIndex i = ({ w with currentIndex := i }, true)) ∧
    (∀ i : Int, ¬ (0 ≤ i ∧ i < (w.options.length : Int)) →
      w.selectByIndex i = (w, false)) := by
  obtain ⟨t, opts, idx, act⟩ := w
  refine ⟨?_, ?_, ?_, ?_, ?_, ?_, ?_⟩
  · rw [selectNext_iterate t opts act idx h0 hN opts.length]
    simp only [SelectorWidget.mk.injEq, true_and, and_true]
    rw [show idx + (opts.length : Int) = idx + (opts.length : Int) * 1 from by ring]
    rw [Int.add_mul_emod_self_left]
    exact Int.emod_eq_of_lt h0 hN
  · rw [selectPrevious_iterate t opts act idx h0 hN opts.length]
    simp only [SelectorWidget.mk.injEq, true_and, and_true]
    rw [show idx - (opts.length : Int) = idx + (opts.length : Int) * (-1) from by ring]
    rw [Int.add_mul_emod_self_left]
    exact Int.emod_eq_of_lt h0 hN
  · simp [SelectorWidget.selectNext, hempty]
  · simp [SelectorWidget.selectPrevious, hempty]
  · simp only [SelectorWidget.selectByIndex]
    rw [if_neg (by rw [hempty]; simp)]
  · intro i hi0 hiN
    simp only [SelectorWidget.selectByIndex]
    rw [if_pos ⟨hi0, hiN⟩]
  · intro i hi
    simp only [SelectorWidget.selectByIndex]
    rw [if_neg hi]

/-- Witness for `selector_cycle_and_bounds` on the three-option selector
("a","b","c"), the empty selector and out-of-range index 5. -/
theorem selector_cycle_and_bounds_witness :
    (0 ≤ demoSelector.currentIndex ∧
      demoSelector.currentIndex < (demoSelector.options.length : Int) ∧
      emptySelector.options = []) ∧
    ((SelectorWidget.selectNext)^[demoSelector.options.length] demoSelector = demoSelector ∧
      (SelectorWidget.selectPrevious)^[demoSelector.options.length] demoSelector =
        demoSelector ∧
      emptySelector.selectNext = emptySelector ∧
      emptySelector.selectPrevious = emptySelector ∧
      emptySelector.selectByIndex 5 = (emptySelector, false) ∧
      (∀ i : Int, 0 ≤ i → i < (demoSelector.options.length : Int) →
        demoSelector.selectByIndex i = ({ demoSelector with currentIndex := i }, true)) ∧
      (∀ i : Int, ¬ (0 ≤ i ∧ i < (demoSelector.options.length : Int)) →
        demoSelector.selectByIndex i = (demoSelector, false))) :=
  ⟨⟨by decide, by decide, by decide⟩,
    selector_cycle_and_bounds demoSelector emptySelector 5
      (by decide) (by decide) (by decide)⟩

/-! ## Scroll controller (claim C7) -/

theorem maxScroll_nonneg (m : InteractiveModel) : 0 ≤ m.maxScroll := by
  simp only [InteractiveModel.maxScroll]
  split <;> omega

/-- The scroll bound `maxScroll` only depends on the store, the width and the height. -/
theorem maxScroll_congr (m1 m2 : InteractiveModel) (hm : m1.messages = m2.messages)
    (hw : m1.width = m2.width) (hh : m1.height = m2.height) :
    m1.maxScroll = m2.maxScroll := by
  unfold InteractiveModel.maxScroll InteractiveModel.totalLines
    InteractiveModel.getFormattedMessageLines InteractiveModel.formatMessages
  rw [hm, hw, hh]

theorem scrollUp_spec (m : InteractiveModel) (n : Int) :
    (m.scrollUp n).scrollPos =
      (if m.scrollPos - n < 0 then 0 else m.scrollPos - n) ∧
    (m.scrollUp n).messages = m.messages ∧ (m.scrollUp n).width = m.width ∧
    (m.scrollUp n).height = m.height := by
  unfold InteractiveModel.scrollUp
  split <;> simp

theorem scrollDown_spec (m : InteractiveModel) (n : Int) :
    (m.scrollDown n).scrollPos =
      (if m.scrollPos + n > m.maxScroll then m.maxScroll else m.scrollPos + n) ∧
    (m.scrollDown n).messages = m.messages ∧ (m.scrollDown n).width = m.width ∧
    (m.scrollDown n).height = m.height := by
  unfold InteractiveModel.scrollDown
  simp

theorem scrollPageUp_spec (m : InteractiveModel) :
    (m.scrollPageUp).scrollPos =
      (if m.scrollPos - m.height / 2 < 0 then 0 else m.scrollPos - m.height / 2) ∧
    (m.scrollPageUp).messages = m.messages ∧ (m.scrollPageUp).width = m.width ∧
    (m.scrollPageUp).height = m.height := by
  unfold InteractiveModel.scrollPageUp InteractiveModel.scrollUp
  by_cases he : m.enableInput <;> simp [he]

theorem scrollPageDown_spec (m : InteractiveModel) :
    (m.scrollPageDown).scrollPos =
      (if m.scrollPos + m.height / 2 > m.maxScroll then m.maxScroll
        else m.scrollPos + m.height / 2) ∧
    (m.scrollPageDown).messages = m.messages ∧ (m.scrollPageDown).width = m.width ∧
    (m.scrollPageDown).height = m.height := by
  unfold InteractiveModel.scrollPageDown InteractiveModel.scrollDown
  simp

theorem scrollToTop_spec (m : InteractiveModel) :
    (m.scrollToTop).scrollPos = 0 ∧
    (m.scrollToTop).messages = m.messages ∧ (m.scrollToTop).width = m.width ∧
    (m.scrollToTop).height = m.height := by
  unfold InteractiveModel.scrollToTop
  split <;> simp

theorem scrollToBottom_spec (m : InteractiveModel) :
    (m.scrollToBottom).scrollPos =
      (if (m.totalLines : Int) > m.height - 3 then (m.totalLines : Int) - (m.height - 3)
        else 0) ∧
    (m.scrollToBottom).messages = m.messages ∧ (m.scrollToBottom).width = m.width ∧
    (m.scrollToBottom).height = m.height := by
  unfold InteractiveModel.scrollToBottom
  simp

/-- Every single scroll call with a non-negative amount (and a
non-negative terminal height, for the page operations) keeps the scroll
position in `[0, maxScroll]` and does not change the store, the width or
the height. -/
theorem applyScrollOp_preserves (m : InteractiveModel) (op : ScrollOp)
    (hh : 0 ≤ m.height) (hop : op.nonneg) (h : scrollInRange m) :
    scrollInRange (applyScrollOp m op) ∧
      (applyScrollOp m op).messages = m.messages ∧
      (applyScrollOp m op).width = m.width ∧
      (applyScrollOp m op).height = m.height := by
  have hmax0 := maxScroll_nonneg m
  obtain ⟨h1, h2⟩ := h
  cases op with
  | up n =>
    have hn : 0 ≤ n := hop
    obtain ⟨hp, hf1, hf2, hf3⟩ := scrollUp_spec m n
    have hcong := maxScroll_congr _ _ hf1 hf2 hf3
    simp only [applyScrollOp]
    exact ⟨⟨by rw [hp]; split <;> omega, by rw [hp, hcong]; split <;> omega⟩,
      hf1, hf2, hf3⟩
  | down n =>
    have hn : 0 ≤ n := hop
    obtain ⟨hp, hf1, hf2, hf3⟩ := scrollDown_spec m n
    have hcong := maxScroll_congr _ _ hf1 hf2 hf3
    simp only [applyScrollOp]
    exact ⟨⟨by rw [hp]; split <;> omega, by rw [hp, hcong]; split <;> omega⟩,
      hf1, hf2, hf3⟩
  | pageUp =>
    have hn : 0 ≤ m.height / 2 := by omega
    obtain ⟨hp, hf1, hf2, hf3⟩ := scrollPageUp_spec m
    have hcong := maxScroll_congr _ _ hf1 hf2 hf3
    simp only [applyScrollOp]
    exact ⟨⟨by rw [hp]; split <;> omega, by rw [hp, hcong]; split <;> omega⟩,
      hf1, hf2, hf3⟩
  | pageDown =>
    have hn : 0 ≤ m.height / 2 := by omega
    obtain ⟨hp, hf1, hf2, hf3⟩ := scrollPageDown_spec m
    have hcong := maxScroll_congr _ _ hf1 hf2 hf3
    simp only [applyScrollOp]
    exact ⟨⟨by rw [hp]; split <;> omega, by rw [hp, hcong]; split <;> omega⟩,
      hf1, hf2, hf3⟩
  | toTop =>
    obtain ⟨hp, hf1, hf2, hf3⟩ := scrollToTop_spec m
    have hcong := maxScroll_congr _ _ hf1 hf2 hf3
    simp only [applyScrollOp]
    exact ⟨⟨by rw [hp], by rw [hp, hcong]; exact hmax0⟩, hf1, hf2, hf3⟩
  | toBottom =>
    obtain ⟨hp, hf1, hf2, hf3⟩ := scrollToBottom_spec m
    have hcong := maxScroll_congr _ _ hf1 hf2 hf3
    simp only [applyScrollOp]
    refine ⟨⟨?_, ?_⟩, hf1, hf2, hf3⟩
    · rw [hp]; split <;> omega
    · rw [hp, hcong]
      simp only [InteractiveModel.maxScroll]
      split <;> split <;> omega

/-- C7: starting from any scroll position within the valid range (with a
non-negative terminal height and the non-negative scroll amounts the
program passes), any sequence of scrollUp / scrollDown / scrollPageUp /
scrollPageDown / scrollToTop / scrollToBottom calls leaves the scroll
position within `[0, max(0, totalLines − (height − 3))]`, where
`height − 3` is the viewport height (terminal height minus the reserved
input area). -/
theorem scroll_position_stays_in_range (m : InteractiveModel) (ops : List ScrollOp)
    (hh : 0 ≤ m.height) (hops : ∀ op ∈ ops, op.nonneg) (h : scrollInRange m) :
    scrollInRange (ops.foldl applyScrollOp m) := by
  induction ops generalizing m with
  | nil => exact h
  | cons op ops ih =>
    obtain ⟨h1, hf1, hf2, hf3⟩ :=
      applyScrollOp_preserves m op hh (hops op (List.mem_cons_self op ops)) h
    exact ih (applyScrollOp m op) (hf3 ▸ hh)
      (fun o ho => hops o (List.mem_cons_of_mem op ho)) h1

/-- Witness for `scroll_position_stays_in_range` on a concrete model and
one call of each operation. -/
theorem scroll_position_stays_in_range_witness :
    (0 : Int) ≤ smallModel.height ∧ (∀ op ∈ demoOps, op.nonneg) ∧
      scrollInRange smallModel ∧ scrollInRange (demoOps.foldl applyScrollOp smallModel) :=
  ⟨by decide, by decide, by decide,
    scroll_position_stays_in_range smallModel demoOps (by decide) (by decide) (by decide)⟩

/-! ## Request assembly (claim C10) -/

/-- C10: the outbound request sequence built by `getRecentMessages` is
the stored System message first, followed by the at most 20 most recent
User/Assistant messages in conversation order (the last
`min 20 (number of User/Assistant messages)` entries of the
User/Assistant subsequence), so it has at most 21 entries and every
entry after the head carries the role "user" or "assistant" — never a
Chait notice or an Error message. -/
theorem getRecentMessages_shape (m : InteractiveModel) :
    m.getRecentMessages =
      m.getSystemMessage ::
        ((m.messages.filter isUserOrAssistant).drop
          ((m.messages.filter isUserOrAssistant).length - 20)).map Message.toChatMessage ∧
    m.getRecentMessages.length ≤ 21 ∧
    ∀ c ∈ m.getRecentMessages.drop 1,
      c.role = "user".toList ∨ c.role = "assistant".toList := by
  have key : ∀ (l : List Message),
      ((l.reverse.take 20).map Message.toChatMessage).reverse =
        (l.drop (l.length - 20)).map Message.toChatMessage := by
    intro l
    rw [← List.map_reverse, ← List.rtake_eq_reverse_take_reverse]
    simp only [List.rtake]
  have h1 : m.getRecentMessages =
      m.getSystemMessage ::
        ((m.messages.filter isUserOrAssistant).drop
          ((m.messages.filter isUserOrAssistant).length - 20)).map Message.toChatMessage := by
    unfold InteractiveModel.getRecentMessages
    rw [List.filter_reverse, key]
  refine ⟨h1, ?_, ?_⟩
  · rw [h1]
    simp only [List.length_cons, List.length_map, List.length_drop]
    omega
  · intro c hc
    rw [h1] at hc
    simp only [List.drop_one, List.tail_cons] at hc
    obtain ⟨msg, hmsg, rfl⟩ := List.mem_map.mp hc
    have hmem := List.mem_of_mem_drop hmsg
    have htype := (List.mem_filter.mp hmem).2
    obtain ⟨t, cont⟩ := msg
    cases t with
    | User => exact Or.inl rfl
    | Assistant => exact Or.inr rfl
    | System => simp [isUserOrAssistant] at htype
    | Chait => simp [isUserOrAssistant] at htype
    | Error => simp [isUserOrAssistant] at htype

/-! ## Streaming error handling (claim C1) -/

/-- C1: evaluating the streaming-error step at a reachable mid-stream
state (initial model, user types "hi", presses Enter, the streaming
request is issued).  The chunk `{error: "boom"}` replaces the in-flight
Assistant message — the last message — with an Error message holding the
error text, leaves every earlier message unchanged and issues no further
receive command; but `enableInput` remains `false`: the `streamResponseMsg`
error branch never re-enables input, contradicting the claim and §7 of
the spec ("TransportError … input re-enabled"), while both the sibling
request-error branch and the done branch do set `enableInput = true`.
The omission is a slip in the code. -/
theorem streaming_error_leaves_input_disabled :
    midStreamModel.enableInput = false ∧
    (update midStreamModel (.streamResponse [] false (some "boom".toList))).1.messages =
      midStreamModel.messages.dropLast ++
        [{ type := .Error, content := "boom".toList }] ∧
    (update midStreamModel (.streamResponse [] false (some "boom".toList))).2 = .none ∧
    (update midStreamModel (.streamResponse [] false (some "boom".toList))).1.enableInput =
      false := by
  refine ⟨by decide, ?_, by decide, by decide⟩
  decide

/-! ## Auto-follow during streaming (claim C6) -/

/-- A content chunk arriving while `autoScrollBottom` is off does not move
the viewport. -/
theorem updateStreamResponse_noscroll (m : InteractiveModel) (c : List Char)
    (h : m.autoScrollBottom = false) :
    (updateStreamResponse m c false none).1.scrollPos = m.scrollPos := by
  unfold updateStreamResponse
  simp [h]

/-- Calling `scrollToBottom` pins the position to the scroll upper bound. -/
theorem scrollToBottom_pins (m : InteractiveModel) :
    (m.scrollToBottom).scrollPos = (m.scrollToBottom).maxScroll := by
  obtain ⟨hp, hf1, hf2, hf3⟩ := scrollToBottom_spec m
  have hcong := maxScroll_congr _ _ hf1 hf2 hf3
  rw [hp, hcong]
  simp only [InteractiveModel.maxScroll]
  split <;> split <;> omega

/-- Pressing "end" pins the viewport to the scroll upper bound. -/
theorem keyEnd_pins (m : InteractiveModel) :
    (update m .keyEnd).1.scrollPos = (update m .keyEnd).1.maxScroll := by
  have h1 : (update m .keyEnd).1.scrollPos = (m.scrollToBottom).scrollPos := by
    simp [update]
  have h2 : (update m .keyEnd).1.maxScroll = (m.scrollToBottom).maxScroll := by
    have hf : (update m .keyEnd).1.messages = (m.scrollToBottom).messages ∧
        (update m .keyEnd).1.width = (m.scrollToBottom).width ∧
        (update m .keyEnd).1.height = (m.scrollToBottom).height := by
      refine ⟨?_, ?_, ?_⟩ <;> simp [update]
    exact maxScroll_congr _ _ hf.1 hf.2.1 hf.2.2
  rw [h1, h2]
  exact scrollToBottom_pins m

/-- A content chunk arriving while `autoScrollBottom` is on re-pins the
viewport to the bottom bound of the extended content. -/
theorem updateStreamResponse_repin (m : InteractiveModel) (c : List Char)
    (h : m.autoScrollBottom = true) :
    (updateStreamResponse m c false none).1.scrollPos =
      (updateStreamResponse m c false none).1.maxScroll := by
  unfold updateStreamResponse
  simp only [h, if_true, Bool.not_false, if_pos]
  exact scrollToBottom_pins _

/-- C6: from any state with input disabled (a streaming turn in
progress), scrolling up (a wheel tick) turns auto-follow off; a content
chunk then leaves the scroll position unchanged; pressing "end" turns
auto-follow on and pins the viewport to the bottom bound; and the next
content chunk re-pins the (extended) viewport to the bottom bound. -/
theorem streaming_scroll_autofollow_scenario (m : InteractiveModel)
    (c1 c2 : List Char) (_hstream : m.enableInput = false) :
    (update m .mouseWheelUp).1.autoScrollBottom = false ∧
    (update (update m .mouseWheelUp).1 (.streamResponse c1 false none)).1.scrollPos =
      (update m .mouseWheelUp).1.scrollPos ∧
    ((update (update m .mouseWheelUp).1 .keyEnd).1.autoScrollBottom = true ∧
      (update (update m .mouseWheelUp).1 .keyEnd).1.scrollPos =
        (update (update m .mouseWheelUp).1 .keyEnd).1.maxScroll) ∧
    (update (update (update m .mouseWheelUp).1 .keyEnd).1
        (.streamResponse c2 false none)).1.scrollPos =
      (update (update (update m .mouseWheelUp).1 .keyEnd).1
        (.streamResponse c2 false none)).1.maxScroll := by
  have ha : (update m .mouseWheelUp).1.autoScrollBottom = false := by
    simp [update]
  refine ⟨ha, ?_, ?_, ?_⟩
  · exact updateStreamResponse_noscroll _ c1 ha
  · exact ⟨by simp [update], keyEnd_pins _⟩
  · have hb : (update (update m .mouseWheelUp).1 .keyEnd).1.autoScrollBottom = true := by
      simp [update]
    exact updateStreamResponse_repin _ c2 hb

/-! ## Selector mutual exclusion (claim C8) -/

/-- Counting bound from pointwise flag monotonicity: if every flag that is
set afterwards was set before, the active count cannot grow past 1. -/
theorem activeCount_le_of_flags (m m2 : InteractiveModel)
    (hp : m2.providerSelector.isActive = true → m.providerSelector.isActive = true)
    (hq : m2.modelSelector.isActive = true → m.modelSelector.isActive = true)
    (hr : m2.temperatureSelector.isActive = true → m.temperatureSelector.isActive = true)
    (h : activeCount m ≤ 1) : activeCount m2 ≤ 1 := by
  unfold activeCount at h ⊢
  split_ifs at h ⊢ <;> simp_all

/-- The `:`-command dispatch either activates exactly one selector
(`:p`/`:m`/`:t`) or leaves the three `isActive` flags unchanged. -/
theorem colonCommand_flags (m : InteractiveModel) (newInput : List Char)
    (n : Nat) (env : Env) :
    activeCount (updateColonCommand m newInput n env).1 = 1 ∨
    (((updateColonCommand m newInput n env).1.providerSelector.isActive = true →
        m.providerSelector.isActive = true) ∧
      ((updateColonCommand m newInput n env).1.modelSelector.isActive = true →
        m.modelSelector.isActive = true) ∧
      ((updateColonCommand m newInput n env).1.temperatureSelector.isActive = true →
        m.temperatureSelector.isActive = true)) := by
  unfold updateColonCommand
  split
  · exact Or.inl (by simp [activeCount])
  · split
    · exact Or.inl (by simp [activeCount])
    · split
      · exact Or.inl (by simp [activeCount])
      · split
        · exact Or.inr (by simp)
        · split
          · exact Or.inr (by simp)
          · split
            · exact Or.inr (by simp)
            · exact Or.inr (by simp)

set_option maxHeartbeats 2000000 in
/-- Every step of the event loop either ends with exactly one active
selector (the six activation branches, which deactivate the other two
selectors in the same step) or only preserves or clears the three
`isActive` flags. -/
theorem update_flags (m : InteractiveModel) (e : Event) :
    activeCount (update m e).1 = 1 ∨
    (((update m e).1.providerSelector.isActive = true →
        m.providerSelector.isActive = true) ∧
      ((update m e).1.modelSelector.isActive = true →
        m.modelSelector.isActive = true) ∧
      ((update m e).1.temperatureSelector.isActive = true →
        m.temperatureSelector.isActive = true)) := by
  cases e with
  | cursorBlink => exact Or.inr (by simp [update])
  | windowSize w2 h2 => exact Or.inr (by simp [update])
  | startStreaming env =>
    simp only [update, updateStartStreaming]
    split
    · exact Or.inr (by simp)
    · cases hse : env.sendError <;> exact Or.inr (by simp [hse])
  | streamResponse c d err =>
    simp only [update, updateStreamResponse]
    cases err with
    | some e2 => exact Or.inr (by simp)
    | none =>
      dsimp only
      split <;> split <;> exact Or.inr (by simp)
  | mouseWheelUp => exact Or.inr (by simp [update])
  | mouseWheelDown =>
    simp only [update]
    split <;> exact Or.inr (by simp)
  | mousePress x y => exact Or.inr (by simp [update])
  | mouseMotion x y =>
    simp only [update]
    split <;> exact Or.inr (by simp)
  | mouseRelease x y =>
    simp only [update]
    split
    · split <;> exact Or.inr (by simp)
    · exact Or.inr (by simp)
  | keyCtrlP => exact Or.inl (by simp [update, activeCount])
  | keyCtrlM => exact Or.inl (by simp [update, activeCount])
  | keyCtrlT => exact Or.inl (by simp [update, activeCount])
  | keyPgUp => exact Or.inr (by simp [update])
  | keyPgDown =>
    simp only [update]
    split <;> exact Or.inr (by simp)
  | keyUp =>
    simp only [update]
    split
    · exact Or.inr (by simp)
    · split
      · exact Or.inr (by simp)
      · split
        · exact Or.inr (by simp)
        · exact Or.inr (by simp)
  | keyDown =>
    simp only [update]
    split
    · exact Or.inr (by simp)
    · split
      · exact Or.inr (by simp)
      · split
        · exact Or.inr (by simp)
        · exact Or.inr (by simp)
  | keyHome => exact Or.inr (by simp [update])
  | keyEnd => exact Or.inr (by simp [update])
  | keyAltEnter => exact Or.inr (by simp [update])
  | keyCtrlCOrEsc env =>
    simp only [update, updateKeyCtrlCOrEsc]
    split
    · exact Or.inr (by simp)
    · split
      · exact Or.inr (by simp)
      · split
        · exact Or.inr (by simp)
        · split <;> exact Or.inr (by simp)
  | keyEnter env =>
    simp only [update, updateKeyEnter]
    split
    · exact Or.inr (by simp)
    · split
      · exact Or.inr (by simp)
      · split
        · exact Or.inr (by simp)
        · split
          · split
            · exact Or.inr (by simp)
            · cases hke : env.apiKeyError <;> exact Or.inr (by simp [hke])
          · split
            · exact Or.inr (by simp)
            · split <;> exact Or.inr (by simp)
  | keyRunes rs env =>
    rw [show update m (.keyRunes rs env) = updateKeyRunes m rs env from rfl]
    unfold updateKeyRunes
    dsimp only
    split
    · cases hb : (m.providerSelector.selectByIndex
          ((m.input.getD 0 'x').toNat - '1'.toNat)).2 <;>
        exact Or.inr (by simp [hb])
    · split
      · cases hb : (m.modelSelector.selectByIndex
            ((m.input.getD 0 'x').toNat - '1'.toNat)).2 <;>
          exact Or.inr (by simp [hb])
      · split
        · cases hb : (m.temperatureSelector.selectByIndex
              ((m.input.getD 0 'x').toNat - '1'.toNat)).2 <;>
            exact Or.inr (by simp [hb])
        · exact colonCommand_flags m _ rs.length env
  | keyLeft =>
    simp only [update]
    split <;> exact Or.inr (by simp)
  | keyRight =>
    simp only [update]
    split <;> exact Or.inr (by simp)
  | keyDelete =>
    simp only [update]
    split <;> exact Or.inr (by simp)
  | keyBackspace =>
    simp only [update]
    split <;> exact Or.inr (by simp)
  | keySpace => exact Or.inr (by simp [update])

/-- Every event preserves "at most one selector active". -/
theorem activeCount_update_le (m : InteractiveModel) (e : Event)
    (h : activeCount m ≤ 1) : activeCount (update m e).1 ≤ 1 := by
  rcases update_flags m e with h1 | ⟨hp, hq, hr⟩
  · omega
  · exact activeCount_le_of_flags m (update m e).1 hp hq hr h

/-- C8: in every state of the event loop reachable from the initial model
by any sequence of events, at most one of the provider, model and
temperature selector widgets is active. -/
theorem at_most_one_selector_active (input : List Char) (env : Env)
    (evs : List Event) :
    activeCount (reach (initialInteractiveModel input env).1 evs) ≤ 1 := by
  have hstep : ∀ (evs2 : List Event) (m : InteractiveModel), activeCount m ≤ 1 →
      activeCount (reach m evs2) ≤ 1 := by
    intro evs2
    induction evs2 with
    | nil => intro m h; exact h
    | cons e es ih =>
      intro m h
      exact ih (update m e).1 (activeCount_update_le m e h)
  refine hstep evs (initialInteractiveModel input env).1 ?_
  by_cases hi : input = [] <;>
    simp [initialInteractiveModel, refreshConfig, activeCount, hi]

/-! ## Presence of the System message (claim C2) -/

/-- The `:`-command dispatch leaves the store unchanged, appends one
message, or resets it to exactly the System message (the `:c` command). -/
theorem colonCommand_messages (m : InteractiveModel) (newInput : List Char)
    (n : Nat) (env : Env) :
    (updateColonCommand m newInput n env).1.messages = m.messages ∨
    (updateColonCommand m newInput n env).1.messages =
      m.messages ++ [helpMessage env.providerInfo] ∨
    (updateColonCommand m newInput n env).1.messages =
      m.messages ++
        [{ type := .Chait,
           content := "Please enter your API key of ".toList ++ env.providerName ++ [':'] }] ∨
    (updateColonCommand m newInput n env).1.messages = [systemMessage] := by
  unfold updateColonCommand
  split
  · exact Or.inl (by simp)
  · split
    · exact Or.inl (by simp)
    · split
      · exact Or.inl (by simp)
      · split
        · exact Or.inr (Or.inl (by simp))
        · split
          · exact Or.inr (Or.inr (Or.inl (by simp)))
          · split
            · exact Or.inr (Or.inr (Or.inr (by simp)))
            · exact Or.inl (by simp)

/-- Every input event (stream responses aside) preserves the presence of
the System message in the store: the store is only appended to, except
for `:c`, which resets it to the System message alone. -/
theorem containsSystem_update (m : InteractiveModel) (e : Event)
    (he : e.isStreamResponse = false) (h : containsSystemMessage m) :
    containsSystemMessage (update m e).1 := by
  obtain ⟨msg, hmem, htype⟩ := h
  cases e with
  | streamResponse c d err => simp [Event.isStreamResponse] at he
  | cursorBlink => exact ⟨msg, by simp [update]; exact hmem, htype⟩
  | windowSize w2 h2 => exact ⟨msg, by simp [update]; exact hmem, htype⟩
  | startStreaming env =>
    simp only [update, updateStartStreaming]
    split
    · exact ⟨msg, by simp; exact Or.inl hmem, htype⟩
    · cases hse : env.sendError with
      | some e2 =>
        refine ⟨msg, ?_, htype⟩
        dsimp only
        simp [setLast, List.dropLast_concat]
        exact Or.inl hmem
      | none =>
        refine ⟨msg, ?_, htype⟩
        dsimp only
        simp
        exact Or.inl hmem
  | mouseWheelUp => exact ⟨msg, by simp [update]; exact hmem, htype⟩
  | mouseWheelDown =>
    simp only [update]
    split <;> exact ⟨msg, by simp; exact hmem, htype⟩
  | mousePress x y => exact ⟨msg, by simp [update]; exact hmem, htype⟩
  | mouseMotion x y =>
    simp only [update]
    split <;> exact ⟨msg, by simp; exact hmem, htype⟩
  | mouseRelease x y =>
    simp only [update]
    split
    · split <;> exact ⟨msg, by simp; exact hmem, htype⟩
    · exact ⟨msg, by simp; exact hmem, htype⟩
  | keyCtrlP => exact ⟨msg, by simp [update]; exact hmem, htype⟩
  | keyCtrlM => exact ⟨msg, by simp [update]; exact hmem, htype⟩
  | keyCtrlT => exact ⟨msg, by simp [update]; exact hmem, htype⟩
  | keyPgUp => exact ⟨msg, by simp [update]; exact hmem, htype⟩
  | keyPgDown =>
    simp only [update]
    split <;> exact ⟨msg, by simp; exact hmem, htype⟩
  | keyUp =>
    simp only [update]
    split
    · exact ⟨msg, by simp; exact hmem, htype⟩
    · split
      · exact ⟨msg, by simp; exact hmem, htype⟩
      · split
        · exact ⟨msg, by simp; exact hmem, htype⟩
        · exact ⟨msg, by simp; exact hmem, htype⟩
  | keyDown =>
    simp only [update]
    split
    · exact ⟨msg, by simp; exact hmem, htype⟩
    · split
      · exact ⟨msg, by simp; exact hmem, htype⟩
      · split
        · exact ⟨msg, by simp; exact hmem, htype⟩
        · exact ⟨msg, by simp; exact hmem, htype⟩
  | keyHome => exact ⟨msg, by simp [update]; exact hmem, htype⟩
  | keyEnd => exact ⟨msg, by simp [update]; exact hmem, htype⟩
  | keyAltEnter => exact ⟨msg, by simp [update]; exact hmem, htype⟩
  | keyCtrlCOrEsc env =>
    simp only [update, updateKeyCtrlCOrEsc]
    split
    · exact ⟨msg, by simp; exact hmem, htype⟩
    · split
      · exact ⟨msg, by simp; exact hmem, htype⟩
      · split
        · exact ⟨msg, by simp; exact hmem, htype⟩
        · split <;> exact ⟨msg, by simp; exact hmem, htype⟩
  | keyEnter env =>
    simp only [update, updateKeyEnter]
    split
    · exact ⟨msg, by simp; exact hmem, htype⟩
    · split
      · exact ⟨msg, by simp; exact hmem, htype⟩
      · split
        · exact ⟨msg, by simp; exact hmem, htype⟩
        · split
          · split
            · exact ⟨msg, by simp; exact hmem, htype⟩
            · cases hke : env.apiKeyError <;>
                exact ⟨msg, by simp; exact Or.inl hmem, htype⟩
          · split
            · exact ⟨msg, by simp; exact hmem, htype⟩
            · split
              · exact ⟨msg, by simp; exact hmem, htype⟩
              · exact ⟨msg, by simp; exact Or.inl hmem, htype⟩
  | keyRunes rs env =>
    rw [show update m (.keyRunes rs env) = updateKeyRunes m rs env from rfl]
    unfold updateKeyRunes
    dsimp only
    split
    · exact ⟨msg, by simp; exact hmem, htype⟩
    · split
      · exact ⟨msg, by simp; exact hmem, htype⟩
      · split
        · exact ⟨msg, by simp; exact hmem, htype⟩
        · rcases colonCommand_messages m
              (m.input.take m.cursor ++ rs ++ m.input.drop m.cursor) rs.length env with
            hc | hc | hc | hc
          · exact ⟨msg, by rw [hc]; exact hmem, htype⟩
          · exact ⟨msg, by rw [hc]; exact List.mem_append_left _ hmem, htype⟩
          · exact ⟨msg, by rw [hc]; exact List.mem_append_left _ hmem, htype⟩
          · exact ⟨systemMessage, by rw [hc]; exact List.mem_singleton_self _, rfl⟩
  | keyLeft =>
    simp only [update]
    split <;> exact ⟨msg, by first | (simp; exact hmem) | exact hmem, htype⟩
  | keyRight =>
    simp only [update]
    split <;> exact ⟨msg, by first | (simp; exact hmem) | exact hmem, htype⟩
  | keyDelete =>
    simp only [update]
    split <;> exact ⟨msg, by first | (simp; exact hmem) | exact hmem, htype⟩
  | keyBackspace =>
    simp only [update]
    split <;> exact ⟨msg, by first | (simp; exact hmem) | exact hmem, htype⟩
  | keySpace => exact ⟨msg, by simp [update]; exact hmem, htype⟩

/-- Counterexample to C2 as stated: the first element of the initial
message store (a state trivially reachable by the empty event sequence)
is the Chait-type welcome notice, not the System message — the System
message sits at index 1 until a `:c` command moves it to the front. -/
theorem initial_first_message_not_system :
    (reach (initialInteractiveModel [] env0).1 []).messages.head?.map Message.type =
        some MessageType.Chait ∧
      MessageType.Chait ≠ MessageType.System := by
  decide

/-- C2 (amended): under every sequence of input events — the `:c`
clear command included — the message store always contains the System
message; it is never removed.  Stream-response events must be excluded:
a chunk that arrives after a `:c` typed mid-stream overwrites the store's
last message, which is then the System message itself.  (And the System
message is the *first* element only after a `:c`; initially it follows
the welcome notice, see `initial_first_message_not_system`.) -/
theorem system_message_always_present (input : List Char) (env : Env)
    (evs : List Event) (hnostream : ∀ e ∈ evs, e.isStreamResponse = false) :
    containsSystemMessage (reach (initialInteractiveModel input env).1 evs) := by
  have hstep : ∀ (evs2 : List Event) (m : InteractiveModel),
      (∀ e ∈ evs2, e.isStreamResponse = false) → containsSystemMessage m →
      containsSystemMessage (reach m evs2) := by
    intro evs2
    induction evs2 with
    | nil => intro m _ h; exact h
    | cons e es ih =>
      intro m hn h
      exact ih (update m e).1 (fun x hx => hn x (List.mem_cons_of_mem e hx))
        (containsSystem_update m e (hn e (List.mem_cons_self e es)) h)
  refine hstep evs (initialInteractiveModel input env).1 hnostream ?_
  refine ⟨systemMessage, ?_, rfl⟩
  by_cases hi : input = [] <;> simp [initialInteractiveModel, refreshConfig, hi]

/-- Witness for `system_message_always_present`: a session that opens the
provider selector, cancels it, and runs the `:c` clear command. -/
theorem system_message_always_present_witness :
    (∀ e ∈ [Event.keyCtrlP, Event.keyCtrlCOrEsc env0,
        Event.keyRunes [':'] env0, Event.keyRunes ['c'] env0],
      e.isStreamResponse = false) ∧
    containsSystemMessage (reach (initialInteractiveModel "hi".toList env0).1
      [Event.keyCtrlP, Event.keyCtrlCOrEsc env0,
        Event.keyRunes [':'] env0, Event.keyRunes ['c'] env0]) :=
  ⟨by decide,
    system_message_always_present "hi".toList env0
      [Event.keyCtrlP, Event.keyCtrlCOrEsc env0,
        Event.keyRunes [':'] env0, Event.keyRunes ['c'] env0] (by decide)⟩

/-- Witness for `streaming_scroll_autofollow_scenario` at the concrete
mid-stream state with chunks "Hel" and "lo". -/
theorem streaming_scroll_autofollow_scenario_witness :
    midStreamModel.enableInput = false ∧
    ((update midStreamModel .mouseWheelUp).1.autoScrollBottom = false ∧
      (update (update midStreamModel .mouseWheelUp).1
          (.streamResponse "Hel".toList false none)).1.scrollPos =
        (update midStreamModel .mouseWheelUp).1.scrollPos ∧
      ((update (update midStreamModel .mouseWheelUp).1 .keyEnd).1.autoScrollBottom = true ∧
        (update (update midStreamModel .mouseWheelUp).1 .keyEnd).1.scrollPos =
          (update (update midStreamModel .mouseWheelUp).1 .keyEnd).1.maxScroll) ∧
      (update (update (update midStreamModel .mouseWheelUp).1 .keyEnd).1
          (.streamResponse "lo".toList false none)).1.scrollPos =
        (update (update (update midStreamModel .mouseWheelUp).1 .keyEnd).1
          (.streamResponse "lo".toList false none)).1.maxScroll) :=
  ⟨by decide,
    streaming_scroll_autofollow_scenario midStreamModel "Hel".toList "lo".toList
      (by decide)⟩

end Chait

